import Mathlib

/-!
Verification of the IBM incentive dashboard's dataframe passes.

Shallow embedding of the dataframe-level logic of `src/app.py`:
the header-harmonisation pass `harmonise_columns`, its alias table
`HEADER_MAP`, and the row filter `search_records`.  A dataframe is
modelled column-major: a list of named columns, each a list of cells,
together with the row count carried by the index.  Cells are either
missing (`na`), text (as produced by `read_excel` with `dtype=str`),
numeric (as produced by the derived-total assignments), or boolean
(as produced by the `notna` flag).
-/

set_option autoImplicit false

/-- A single dataframe cell: missing, a string, a number, or a boolean. -/
inductive Cell where
  | na : Cell
  | str : String → Cell
  | num : Rat → Cell
  | bool : Bool → Cell
deriving DecidableEq, Repr

/-- Column-major dataframe: a row count (the index length) and named columns. -/
structure DataFrame where
  nrows : Nat
  cols : List (String × List Cell)
deriving DecidableEq, Repr

namespace DataFrame

/-- The column labels, in order (`df.columns`). -/
def names (df : DataFrame) : List String := df.cols.map Prod.fst

/-- Well-formed frame: every column has exactly `nrows` cells. -/
def WF (df : DataFrame) : Prop := ∀ c ∈ df.cols, c.2.length = df.nrows

instance (df : DataFrame) : Decidable df.WF := by
  unfold WF; infer_instance

/-- Cells of the first column labelled `n`, or `[]` when absent (`df[n]`). -/
def getColD (df : DataFrame) (n : String) : List Cell :=
  match df.cols.find? (fun c => c.1 = n) with
  | some c => c.2
  | none => []

/-- The cell of column `n` at row `i`; `na` when the column is absent or short. -/
def getCell (df : DataFrame) (n : String) (i : Nat) : Cell :=
  (df.getColD n).getD i Cell.na

/-- Relabel every column named `old` to `new` (`df.rename(columns={old: new})`). -/
def renameCol (df : DataFrame) (old new : String) : DataFrame :=
  { df with cols := df.cols.map (fun c => if c.1 = old then (new, c.2) else c) }

/-- Remove every column named `n` (`df.drop(columns=n)`). -/
def dropCol (df : DataFrame) (n : String) : DataFrame :=
  { df with cols := df.cols.filter (fun c => ¬ c.1 = n) }

/-- Assignment `df[n] = cells`: overwrite the column when present, else append. -/
def setCol (df : DataFrame) (n : String) (cells : List Cell) : DataFrame :=
  if n ∈ df.names then
    { df with cols := df.cols.map (fun c => if c.1 = n then (n, cells) else c) }
  else
    { df with cols := df.cols ++ [(n, cells)] }

end DataFrame

/-- Whitespace in the sense of Python's `str.strip`. -/
def isPySpace (c : Char) : Bool :=
  c = ' ' ∨ c = '\t' ∨ c = '\n' ∨ c = '\r'

/-- Strip leading and trailing whitespace from a character list. -/
def stripList (l : List Char) : List Char :=
  ((l.dropWhile isPySpace).reverse.dropWhile isPySpace).reverse

/-- Python's `str.strip()`: remove leading and trailing whitespace. -/
def pyStrip (s : String) : String :=
  String.mk (stripList s.toList)

/-- `df.columns = df.columns.str.strip()` (line 81 of `app.py`). -/
def stripNames (df : DataFrame) : DataFrame :=
  { df with cols := df.cols.map (fun c => (pyStrip c.1, c.2)) }

/-- `HEADER_MAP` of `app.py` (lines 23-73), in insertion order: canonical
header name paired with its list of variant labels. -/
def HEADER_MAP : List (String × List String) := [
  ("Recipient_Name", ["Recipient", "Company", "Company Name", "Applicant Name"]),
  ("Project_Name",   ["Project Title", "Name of Project", "Project"]),
  ("Industry",       ["Industry"]),
  ("Municipality",   ["City/Town", "Municipality", "Project City", "Recipient City"]),
  ("County",         ["County", "Project County", "Recipient County"]),
  ("Postal_Code",    ["Zip", "Zip Code", "Postal Code"]),
  ("Authority_Name", ["Lead Agency Name", "Authority Name"]),
  ("Program_Name",   ["Program through which the funding was awarded"]),
  ("Project_ID", ["Project ID", "Record ID", "Project Identifier", "Report Record ID"]),
  ("Related_Project_ID",
    ["Parent Project ID", "Prior Project #", "Related Project Number",
     "Multi-Phase Project ID"]),
  ("Exemption_School", ["School District Exemption", "School Tax Abated"]),
  ("Exemption_County", ["County Exemption", "County Tax Abated"]),
  ("Exemption_City",   ["City/Town Exemption", "City Tax Abated"]),
  ("PILOT_School", ["School PILOT Payments Scheduled", "School PILOT"]),
  ("PILOT_County", ["County PILOT Payments Scheduled", "County PILOT"]),
  ("PILOT_City",   ["City PILOT Payments Scheduled", "City PILOT"]),
  ("State_Award",
    ["Assistance Amount", "Tax Credit Amount", "Grant Award",
     "Capital Grant Amount", "Empire State Jobs Retention Credit"]),
  ("Jobs_Plan_Total",   ["Jobs Planned", "Jobs to be Created", "Employment Target"]),
  ("Jobs_Plan_FTE",     ["FTE Planned", "Projected FTEs"]),
  ("Jobs_Created_ToDate", ["Jobs Created", "FTEs Reported"]),
  ("Construction_Jobs", ["Construction Jobs", "Const Jobs"]),
  ("Average_Salary",    ["Average Salary", "Avg Annual Wage"]),
  ("Board_Approval_Date",       ["Board Approval Date", "Date Approved"]),
  ("Agreement_Execution_Date",  ["Agreement Execution Date"]),
  ("Project_Start_Date",        ["Project Start Date", "Construction Start"]),
  ("Project_Completion_Date",   ["Project Completion Date", "Construction Completion"]),
  ("Benefit_End_Date",          ["Benefit End Date", "Exemption End Date"]),
  ("Measurement_Year",          ["Fiscal Year", "Reporting Year"])]

/-- `s.fillna(t)` cell by cell: keep the cell of `s` unless it is missing. -/
def fillnaCells (s t : List Cell) : List Cell :=
  s.zipWith (fun a b => if a = Cell.na then b else a) t

open DataFrame in
/-- One iteration of the inner loop of step 1 of `harmonise_columns`
(lines 85-91 of `app.py`): for variant `v` of canonical name `canon`,
rename `v` to `canon` when `canon` is absent, otherwise co-fill `canon`
from `v` and drop `v`.  When `v = canon` this drops the column. -/
def cofillStep (df : DataFrame) (canon v : String) : DataFrame :=
  if v ∈ df.names then
    if canon ∉ df.names then
      df.renameCol v canon
    else
      (df.setCol canon (fillnaCells (df.getColD canon) (df.getColD v))).dropCol v
  else
    df

/-- The inner loop of step 1: process the variants of one canonical name. -/
def pairFold (df : DataFrame) (canon : String) (vs : List String) : DataFrame :=
  vs.foldl (fun d v => cofillStep d canon v) df

/-- The outer loop of step 1: process a list of canonical/variant pairs. -/
def mapFold (df : DataFrame) (hm : List (String × List String)) : DataFrame :=
  hm.foldl (fun d p => pairFold d p.1 p.2) df

/-- Step 1 of `harmonise_columns` (lines 84-91): the double loop over
`HEADER_MAP` in insertion order. -/
def harmoniseStep1 (df : DataFrame) : DataFrame :=
  mapFold df HEADER_MAP

/-- `money_cols` of `app.py` (lines 94-98). -/
def money_cols : List String :=
  ["Exemption_School", "Exemption_County", "Exemption_City",
   "PILOT_School", "PILOT_County", "PILOT_City",
   "State_Award"]

/-- Fold ensuring that each listed column exists, blank when created. -/
def ensureCols (df : DataFrame) (ms : List String) : DataFrame :=
  ms.foldl
    (fun d c => if c ∈ d.names then d else d.setCol c (List.replicate d.nrows Cell.na))
    df

/-- Step 2 (lines 99-101): `df[c] = pd.NA` for each absent money column. -/
def harmoniseStep2 (df : DataFrame) : DataFrame :=
  ensureCols df money_cols

/-- Parse of an optional-sign decimal literal; partial model of the numeric
parsing done by the library routine `pd.to_numeric`. -/
def parseRat (s : String) : Option Rat :=
  let afterSign : List Char × Bool :=
    match s.toList with
    | '-' :: rest => (rest, true)
    | l => (l, false)
  let intPart := afterSign.1.takeWhile Char.isDigit
  let rest := afterSign.1.dropWhile Char.isDigit
  let fracPart :=
    match rest with
    | '.' :: fr => if fr.all Char.isDigit then some fr else none
    | [] => some []
    | _ => none
  match fracPart with
  | none => none
  | some fr =>
    if intPart = [] ∧ fr = [] then none
    else
      let iv : Nat := intPart.foldl (fun n c => 10 * n + c.toNat - '0'.toNat) 0
      let fv : Nat := fr.foldl (fun n c => 10 * n + c.toNat - '0'.toNat) 0
      let mag : Rat := (iv : Rat) + (fv : Rat) / ((10 : Rat) ^ fr.length)
      some (if afterSign.2 then -mag else mag)

/-- `pd.to_numeric(cell, errors="coerce")` on one cell: numbers pass
through, parseable strings are parsed, everything else becomes missing. -/
def toNumeric : Cell → Option Rat
  | Cell.na => none
  | Cell.str s => parseRat s
  | Cell.num q => some q
  | Cell.bool b => some (if b then 1 else 0)

/-- Numeric coercion followed by `fillna(0)`. -/
def coerce0 (c : Cell) : Rat := (toNumeric c).getD 0

/-- Row value of `Exemption_Total` (lines 104-109): coerce the three
exemption cells of row `i`, fill missing with 0, and sum. -/
def exemptionRow (df : DataFrame) (i : Nat) : Rat :=
  coerce0 (df.getCell "Exemption_School" i) + coerce0 (df.getCell "Exemption_County" i)
    + coerce0 (df.getCell "Exemption_City" i)

/-- Row value of `PILOT_Total` (lines 111-116). -/
def pilotRow (df : DataFrame) (i : Nat) : Rat :=
  coerce0 (df.getCell "PILOT_School" i) + coerce0 (df.getCell "PILOT_County" i)
    + coerce0 (df.getCell "PILOT_City" i)

/-- Row value of `State_Award_Total` (lines 118-120). -/
def stateAwardRow (df : DataFrame) (i : Nat) : Rat :=
  coerce0 (df.getCell "State_Award" i)

/-- Step 3 (lines 104-122): assign the four derived total columns. -/
def harmoniseStep3 (df : DataFrame) : DataFrame :=
  let rows := List.range df.nrows
  let d1 := df.setCol "Exemption_Total" (rows.map (fun i => Cell.num (exemptionRow df i)))
  let d2 := d1.setCol "PILOT_Total" (rows.map (fun i => Cell.num (pilotRow df i)))
  let d3 := d2.setCol "State_Award_Total" (rows.map (fun i => Cell.num (stateAwardRow df i)))
  d3.setCol "Total_Incentive"
    (rows.map (fun i => Cell.num (exemptionRow df i + stateAwardRow df i - pilotRow df i)))

/-- Step 4 (lines 125-127): ensure `Related_Project_ID` exists, then set
`Is_MultiPhase = df["Related_Project_ID"].notna()`. -/
def harmoniseStep4 (df : DataFrame) : DataFrame :=
  let d :=
    if "Related_Project_ID" ∈ df.names then df
    else df.setCol "Related_Project_ID" (List.replicate df.nrows Cell.na)
  d.setCol "Is_MultiPhase"
    ((List.range d.nrows).map
      (fun i => Cell.bool (¬ d.getCell "Related_Project_ID" i = Cell.na)))

/-- `df.dropna(axis=1, how="all")` (line 130): keep a column only when
some cell of it is non-missing; on a 0-row frame this drops every column. -/
def dropAllNA (df : DataFrame) : DataFrame :=
  { df with cols := df.cols.filter (fun c => c.2.any (fun x => ¬ x = Cell.na)) }

/-- Helper of `dedupCols`: keep the first column of each label. -/
def dedupColsAux : List (String × List Cell) → List String → List (String × List Cell)
  | [], _ => []
  | c :: rest, seen =>
    if c.1 ∈ seen then dedupColsAux rest seen
    else c :: dedupColsAux rest (c.1 :: seen)

/-- `df.loc[:, ~df.columns.duplicated()]` (line 131). -/
def dedupCols (df : DataFrame) : DataFrame :=
  { df with cols := dedupColsAux df.cols [] }

/-- `harmonise_columns` of `app.py` (lines 79-133): strip labels, rename or
co-fill the `HEADER_MAP` variants, ensure the money columns, derive the
totals and the multi-phase flag, drop all-missing columns, deduplicate. -/
def harmonise_columns (df : DataFrame) : DataFrame :=
  dedupCols (dropAllNA (harmoniseStep4 (harmoniseStep3 (harmoniseStep2
    (harmoniseStep1 (stripNames df))))))

/-- The state of the caller's dataframe object after `harmonise_columns(df)`
returns: every pass through line 130 mutates `df` in place, while line 131
rebinds the local name only, so the caller observes everything but the
final deduplication. -/
def harmoniseInPlaceState (df : DataFrame) : DataFrame :=
  dropAllNA (harmoniseStep4 (harmoniseStep3 (harmoniseStep2
    (harmoniseStep1 (stripNames df)))))

/-- A cell of object dtype: with the workbook read as `dtype=str`, the
object columns hold only strings and missing values. -/
def isObjCell : Cell → Bool
  | Cell.na => true
  | Cell.str _ => true
  | _ => false

/-- `df.select_dtypes(include="object").columns` (line 157): the columns
whose cells are all of object dtype; the derived numeric totals and the
boolean flag are excluded. -/
def objCols (df : DataFrame) : List (String × List Cell) :=
  df.cols.filter (fun c => c.2.all isObjCell)

/-- `df.iloc[0:0]` (line 156): same columns, no rows. -/
def iloc00 (df : DataFrame) : DataFrame :=
  ⟨0, df.cols.map (fun c => (c.1, []))⟩

/-- Substring test on character lists: some suffix of the haystack starts
with the needle. -/
def listContainsSub (hay needle : List Char) : Bool :=
  match hay with
  | [] => needle = []
  | _ :: rest => needle.isPrefixOf hay || listContainsSub rest needle

/-- Python's `t in cell` on strings. -/
def strContainsSub (hay needle : String) : Bool :=
  listContainsSub hay.toList needle.toList

/-- One cell of the non-regex mask (lines 162-165):
`s.str.lower().fillna("").apply(lambda cell: any(t in cell for t in terms_lower))`.
A missing cell is first lowered to missing, then filled with `""`. -/
def cellMatchSub (termsLower : List String) : Cell → Bool
  | Cell.str s => termsLower.any (fun t => strContainsSub s.toLower t)
  | _ => termsLower.any (fun t => strContainsSub "" t)

/-- One cell of the regex mask (line 160):
`s.str.contains(pattern, case=False, na=False, regex=True)`, with the
regex-engine match relation abstracted as the parameter `rmatch`
(`rmatch pattern cell`); a missing cell gives `False` (`na=False`). -/
def cellMatchRe (rmatch : String → String → Bool) (pattern : String) : Cell → Bool
  | Cell.str s => rmatch pattern s
  | _ => false

/-- The row mask of `search_records`: row `i` matches when some object
column's cell at `i` matches some term (`.any(axis=1)`). -/
def rowMask (rmatch : String → String → Bool) (df : DataFrame) (terms : List String)
    (regex : Bool) (i : Nat) : Bool :=
  if regex then
    (objCols df).any
      (fun c => cellMatchRe rmatch (String.intercalate "|" terms) (c.2.getD i Cell.na))
  else
    (objCols df).any
      (fun c => cellMatchSub (terms.map String.toLower) (c.2.getD i Cell.na))

/-- `df[mask]`: keep the rows whose index satisfies the mask, in order. -/
def filterRows (df : DataFrame) (mask : Nat → Bool) : DataFrame :=
  let idxs := (List.range df.nrows).filter mask
  ⟨idxs.length, df.cols.map (fun c => (c.1, idxs.map (fun i => c.2.getD i Cell.na)))⟩

/-- `search_records` of `app.py` (lines 153-166) on the non-raising paths:
empty term list short-circuits to `df.iloc[0:0]`; otherwise the rows whose
object columns match are kept. -/
def search_records (rmatch : String → String → Bool) (df : DataFrame)
    (terms : List String) (regex : Bool) : DataFrame :=
  if terms = [] then iloc00 df
  else filterRows df (rowMask rmatch df terms regex)

/-- Modelled from the Python standard library: `re.compile` rejects a
syntactically invalid pattern such as one with unbalanced parentheses.
Simplified validity check: parentheses balanced and no trailing
backslash.  Helper tracking the open-parenthesis depth. -/
def reValidAux : List Char → Nat → Bool
  | [], d => d = 0
  | ['\\'], _ => false
  | '(' :: rest, d => reValidAux rest (d + 1)
  | ')' :: rest, d => if d = 0 then false else reValidAux rest (d - 1)
  | _ :: rest, d => reValidAux rest d

/-- Modelled from the Python standard library: validity of a regular
expression for `re.compile` (simplified to parenthesis balance and no
dangling escape). -/
def reValid (p : String) : Bool := reValidAux p.toList 0

/-- `search_records` with its raising behaviour made explicit: in regex
mode `str.contains` compiles the joined pattern once per scanned object
column, so an invalid pattern raises `re.error` exactly when the term
list is non-empty and at least one object column exists; every other
path returns normally. -/
def searchRecordsE (rmatch : String → String → Bool) (df : DataFrame)
    (terms : List String) (regex : Bool) : Except String DataFrame :=
  if terms = [] then Except.ok (iloc00 df)
  else if regex ∧ ¬ reValid (String.intercalate "|" terms) ∧ ¬ objCols df = [] then
    Except.error "re.error: invalid pattern"
  else Except.ok (search_records rmatch df terms regex)

/-- Modelled from the spec and `src/pages/1_Map.py` (lines 10-13): the map
page accepts the environment's Mapbox token only when it is present and
starts with `pk.`; otherwise it stops with a user-facing error. -/
def mapTokenOk (t : Option String) : Bool :=
  match t with
  | none => false
  | some s =>
    match s.toList with
    | 'p' :: 'k' :: '.' :: _ => true
    | _ => false

/-- List-level column lookup mirroring `DataFrame.getColD`. -/
def lookupCells (l : List (String × List Cell)) (n : String) : List Cell :=
  match l.find? (fun c => c.1 = n) with
  | some c => c.2
  | none => []

/-- Column `n` holds at least one non-missing cell. -/
def colHasData (df : DataFrame) (n : String) : Bool :=
  (df.getColD n).any (fun x => ¬ x = Cell.na)

/-- All column labels of the frame are fixed points of stripping. -/
def NamesStripped (df : DataFrame) : Prop := ∀ n ∈ df.names, pyStrip n = n

/-- The names introduced by steps 2-4 of the pass. -/
def derivedNames : List String :=
  money_cols ++ ["Exemption_Total", "PILOT_Total", "State_Award_Total",
    "Total_Incentive", "Related_Project_ID", "Is_MultiPhase"]

/-- Row `i` of the frame: each column's label with its cell at `i`. -/
def rowAt (df : DataFrame) (i : Nat) : List (String × Cell) :=
  df.cols.map (fun c => (c.1, c.2.getD i Cell.na))

/-- The rows of the frame, in index order. -/
def rowsOf (df : DataFrame) : List (List (String × Cell)) :=
  (List.range df.nrows).map (rowAt df)

/-- Concrete frame: one row whose only column is `Industry`. -/
def dfC1x : DataFrame := ⟨1, [("Industry", [Cell.str "Tech"])]⟩

/-- Concrete frame: one row whose only column is `Project County`. -/
def dfC2x : DataFrame := ⟨1, [("Project County", [Cell.str "Albany"])]⟩

/-- Concrete frame: one row whose only column is `Recipient`. -/
def dfC2w : DataFrame := ⟨1, [("Recipient", [Cell.str "IBM"])]⟩

/-- Concrete frame: one row of search input. -/
def dfC3w : DataFrame := ⟨2, [("Recipient_Name", [Cell.str "IBM", Cell.str "Acme"])]⟩

/-- Concrete frame: one object column, used for the regex-error input. -/
def dfC4x : DataFrame := ⟨1, [("Notes", [Cell.str "x"])]⟩

/-- Concrete frame: one row with a school tax abatement. -/
def dfC5w : DataFrame := ⟨1, [("School Tax Abated", [Cell.str "100"])]⟩

/-- Concrete frame: one row whose only column is `Municipality`. -/
def dfC6x : DataFrame := ⟨1, [("Municipality", [Cell.str "Albany"])]⟩

/-- Concrete frame: one row whose only column is `Company`. -/
def dfC6w : DataFrame := ⟨1, [("Company", [Cell.str "IBM Corp"])]⟩

/-- Concrete frame: one row whose only column is a determinism probe. -/
def dfC7w : DataFrame := ⟨1, [("Probe", [Cell.str "x"])]⟩

/-- Concrete frame: a column with no rows. -/
def dfC9x : DataFrame := ⟨0, [("Recipient", [])]⟩

/-- Concrete frame: one row with a zip code. -/
def dfC9w : DataFrame := ⟨1, [("Zip", [Cell.str "10001"])]⟩

/-- Concrete frame: one row with a company name. -/
def dfC10w : DataFrame := ⟨1, [("Company Name", [Cell.str "IBM"])]⟩


/-!
Lemmas: Utility lemmas: stripping, cells, fillna
-/

theorem head_dropWhile_false {p : Char → Bool} :
    ∀ (l : List Char) (a : Char) (t : List Char), l.dropWhile p = a :: t → p a = false := by
  intro l
  induction l with
  | nil => intro a t h; simp [List.dropWhile] at h
  | cons b rest ih =>
    intro a t h
    by_cases hb : p b
    · rw [List.dropWhile_cons_of_pos hb] at h; exact ih a t h
    · rw [List.dropWhile_cons_of_neg hb] at h
      cases h; simpa using hb

theorem dropWhile_eq_self_of_head {p : Char → Bool} (l : List Char)
    (h : ∀ a t, l = a :: t → p a = false) : l.dropWhile p = l := by
  cases l with
  | nil => rfl
  | cons a t => rw [List.dropWhile_cons_of_neg]; simp [h a t rfl]

theorem stripList_prefix (l : List Char) : List.IsPrefix (stripList l) (l.dropWhile isPySpace) := by
  unfold stripList
  have h := List.dropWhile_suffix (l := (l.dropWhile isPySpace).reverse) isPySpace
  have h2 := List.reverse_prefix.mpr h
  simpa using h2

theorem stripList_idem (l : List Char) : stripList (stripList l) = stripList l := by
  have hpre := stripList_prefix l
  have h1 : (stripList l).dropWhile isPySpace = stripList l := by
    apply dropWhile_eq_self_of_head
    intro a t h
    obtain ⟨r, hr⟩ := hpre
    rw [h] at hr
    exact head_dropWhile_false l a (t ++ r) (by rw [← hr]; simp)
  show ((((stripList l).dropWhile isPySpace).reverse.dropWhile isPySpace).reverse) = stripList l
  rw [h1]
  show ((((l.dropWhile isPySpace).reverse.dropWhile isPySpace).reverse.reverse.dropWhile isPySpace).reverse) = stripList l
  rw [List.reverse_reverse, List.dropWhile_idempotent]
  rfl

theorem pyStrip_idem (s : String) : pyStrip (pyStrip s) = pyStrip s := by
  show String.mk (stripList (String.mk (stripList s.toList)).toList) = _
  show String.mk (stripList (stripList s.toList)) = _
  rw [stripList_idem]
  rfl

theorem getD_na_of_not_any {l : List Cell} (h : l.any (fun x => ¬ x = Cell.na) = false)
    (i : Nat) : l.getD i Cell.na = Cell.na := by
  rcases Nat.lt_or_ge i l.length with hi | hi
  · rw [List.getD_eq_getElem l Cell.na hi]
    have := List.any_eq_false.mp h (l[i]) (l.getElem_mem hi)
    simpa using this
  · exact List.getD_eq_default l Cell.na hi

theorem fillna_length (s t : List Cell) : (fillnaCells s t).length = min s.length t.length := by
  unfold fillnaCells; simp

theorem fillna_getD (s t : List Cell) (hlen : s.length = t.length) (i : Nat) :
    (fillnaCells s t).getD i Cell.na =
      (if s.getD i Cell.na = Cell.na then t.getD i Cell.na else s.getD i Cell.na) := by
  rcases Nat.lt_or_ge i s.length with hi | hi
  · have hit : i < t.length := hlen ▸ hi
    have hif : i < (fillnaCells s t).length := by rw [fillna_length, hlen]; simpa using hit
    rw [List.getD_eq_getElem _ _ hi, List.getD_eq_getElem _ _ hit, List.getD_eq_getElem _ _ hif]
    unfold fillnaCells
    rw [List.getElem_zipWith]
  · have hit : t.length ≤ i := hlen ▸ hi
    have hif : (fillnaCells s t).length ≤ i := by rw [fillna_length, hlen]; simpa using hit
    rw [List.getD_eq_default _ _ hi, List.getD_eq_default _ _ hit, List.getD_eq_default _ _ hif]
    simp

theorem fillna_any (s t : List Cell) (hlen : s.length = t.length)
    (h : s.any (fun x => ¬ x = Cell.na) = true ∨ t.any (fun x => ¬ x = Cell.na) = true) :
    (fillnaCells s t).any (fun x => ¬ x = Cell.na) = true := by
  rcases h with h | h
  · rw [List.any_eq_true] at h ⊢
    obtain ⟨x, hx, hxna⟩ := h
    obtain ⟨i, hi, hix⟩ := List.getElem_of_mem hx
    have hif : i < (fillnaCells s t).length := by
      rw [fillna_length, hlen]; simp; exact hlen ▸ hi
    refine ⟨(fillnaCells s t)[i], List.getElem_mem hif, ?_⟩
    unfold fillnaCells at hif ⊢
    rw [List.getElem_zipWith]
    simp at hxna
    rw [hix]
    split <;> simp_all
  · rw [List.any_eq_true] at h ⊢
    obtain ⟨x, hx, hxna⟩ := h
    obtain ⟨i, hi, hix⟩ := List.getElem_of_mem hx
    have his : i < s.length := hlen ▸ hi
    have hif : i < (fillnaCells s t).length := by
      rw [fillna_length, hlen]; simpa using hi
    refine ⟨(fillnaCells s t)[i], List.getElem_mem hif, ?_⟩
    unfold fillnaCells at hif ⊢
    rw [List.getElem_zipWith]
    simp at hxna
    split <;> simp_all

/-!
Lemmas: Basic dataframe operation lemmas
-/

theorem nodup_map_rename (l : List String) (o n : String) (hn : n ∉ l) (h : l.Nodup) :
    (l.map (fun x => if x = o then n else x)).Nodup := by
  induction l with
  | nil => simp
  | cons a rest ih =>
    rw [List.map_cons, List.nodup_cons]
    rw [List.nodup_cons] at h
    obtain ⟨ha, hrest⟩ := h
    have hn_rest : n ∉ rest := fun hr => hn (List.mem_cons.mpr (Or.inr hr))
    have hn_a : ¬ n = a := fun hr => hn (List.mem_cons.mpr (Or.inl hr))
    refine ⟨?_, ih hn_rest hrest⟩
    intro hmem
    obtain ⟨x, hx, hxa⟩ := List.mem_map.mp hmem
    by_cases hxo : x = o <;> by_cases hao : a = o
    · exact ha (by rw [hao, ← hxo]; exact hx)
    · rw [if_pos hxo, if_neg hao] at hxa
      exact hn_a hxa
    · rw [if_neg hxo, if_pos hao] at hxa
      exact hn_rest (hxa ▸ hx)
    · rw [if_neg hxo, if_neg hao] at hxa
      exact ha (hxa ▸ hx)

theorem map_fst_filter_ne (l : List (String × List Cell)) (n : String) :
    (l.filter (fun c => !decide (c.1 = n))).map Prod.fst
      = (l.map Prod.fst).filter (fun x => !decide (x = n)) := by
  induction l with
  | nil => rfl
  | cons c rest ih =>
    by_cases h : c.1 = n <;> simp [List.filter_cons, h, ih]

namespace DataFrame

variable (df : DataFrame)

theorem nrows_renameCol (o n : String) : (df.renameCol o n).nrows = df.nrows := rfl

theorem nrows_dropCol (n : String) : (df.dropCol n).nrows = df.nrows := rfl

theorem nrows_setCol (n : String) (cells : List Cell) :
    (df.setCol n cells).nrows = df.nrows := by
  unfold setCol; split <;> rfl

theorem mem_names_iff (x : String) : x ∈ df.names ↔ ∃ cs, (x, cs) ∈ df.cols := by
  unfold names
  constructor
  · intro h
    obtain ⟨c, hc, hx⟩ := List.mem_map.mp h
    subst hx
    exact ⟨c.2, hc⟩
  · intro ⟨cs, hc⟩
    exact List.mem_map.mpr ⟨(x, cs), hc, rfl⟩

theorem names_renameCol (o n : String) :
    (df.renameCol o n).names = df.names.map (fun x => if x = o then n else x) := by
  unfold renameCol names
  rw [List.map_map, List.map_map]
  apply List.map_congr_left
  intro c _
  by_cases h : c.1 = o <;> simp [h]

theorem names_dropCol (n : String) :
    (df.dropCol n).names = df.names.filter (fun x => ¬ x = n) := by
  unfold dropCol names
  simp only [decide_not]
  exact map_fst_filter_ne df.cols n

theorem names_setCol_of_mem {n : String} (h : n ∈ df.names) (cells : List Cell) :
    (df.setCol n cells).names = df.names := by
  unfold setCol
  rw [if_pos h]
  show (df.cols.map _).map _ = _
  rw [List.map_map]
  apply List.map_congr_left
  intro c _
  by_cases hc : c.1 = n <;> simp [hc]

theorem names_setCol_of_not_mem {n : String} (h : n ∉ df.names) (cells : List Cell) :
    (df.setCol n cells).names = df.names ++ [n] := by
  unfold setCol
  rw [if_neg h]
  show (df.cols ++ [(n, cells)]).map _ = _
  simp [names]

theorem mem_names_setCol_self (n : String) (cells : List Cell) :
    n ∈ (df.setCol n cells).names := by
  by_cases h : n ∈ df.names
  · rw [names_setCol_of_mem df h]; exact h
  · rw [names_setCol_of_not_mem df h]; simp

theorem mem_names_setCol_of {x n : String} (h : x ∈ df.names) (cells : List Cell) :
    x ∈ (df.setCol n cells).names := by
  by_cases hn : n ∈ df.names
  · rwa [names_setCol_of_mem df hn]
  · rw [names_setCol_of_not_mem df hn]; exact List.mem_append_left _ h

theorem mem_names_setCol_iff (x n : String) (cells : List Cell) :
    x ∈ (df.setCol n cells).names ↔ x ∈ df.names ∨ x = n := by
  by_cases hn : n ∈ df.names
  · rw [names_setCol_of_mem df hn]
    constructor
    · exact Or.inl
    · rintro (h | rfl) <;> assumption
  · rw [names_setCol_of_not_mem df hn]
    rw [List.mem_append, List.mem_singleton]

theorem nodup_names_setCol {n : String} (cells : List Cell) (h : df.names.Nodup) :
    (df.setCol n cells).names.Nodup := by
  by_cases hn : n ∈ df.names
  · rwa [names_setCol_of_mem df hn]
  · rw [names_setCol_of_not_mem df hn]
    rw [List.nodup_append]
    exact ⟨h, List.nodup_singleton n, by simpa using hn⟩

theorem nodup_names_dropCol (n : String) (h : df.names.Nodup) :
    (df.dropCol n).names.Nodup := by
  rw [names_dropCol]
  exact h.filter _

theorem nodup_names_renameCol {o n : String} (hn : n ∉ df.names) (h : df.names.Nodup) :
    (df.renameCol o n).names.Nodup := by
  rw [names_renameCol]
  exact nodup_map_rename df.names o n hn h

end DataFrame

/-!
Lemmas: Lookup lemmas
-/

theorem find?_append_of_none {α : Type} (l1 l2 : List α) (p : α → Bool)
    (h : l1.find? p = none) : (l1 ++ l2).find? p = l2.find? p := by
  induction l1 with
  | nil => rfl
  | cons a rest ih =>
    rw [List.cons_append]
    cases hpa : p a with
    | true =>
      rw [List.find?_cons_of_pos _ hpa] at h
      exact absurd h (by simp)
    | false =>
      rw [List.find?_cons_of_neg _ (by simp [hpa])] at h
      rw [List.find?_cons_of_neg _ (by simp [hpa])]
      exact ih h

theorem find?_map_set {l : List (String × List Cell)} {n : String} {cells : List Cell}
    (h : ∃ cs, (n, cs) ∈ l) :
    (l.map (fun c => if c.1 = n then (n, cells) else c)).find? (fun c => c.1 = n)
      = some (n, cells) := by
  induction l with
  | nil => obtain ⟨cs, h⟩ := h; simp at h
  | cons c rest ih =>
    by_cases hc : c.1 = n
    · rw [List.map_cons, if_pos hc, List.find?_cons_of_pos]
      simp
    · rw [List.map_cons, if_neg hc, List.find?_cons_of_neg]
      · apply ih
        obtain ⟨cs, hmem⟩ := h
        rcases List.mem_cons.mp hmem with heq | hrest
        · exact absurd (by rw [← heq]) hc
        · exact ⟨cs, hrest⟩
      · simpa using hc

theorem find?_map_set_ne {l : List (String × List Cell)} {n m : String} {cells : List Cell}
    (hmn : ¬ m = n) :
    (l.map (fun c => if c.1 = n then (n, cells) else c)).find? (fun c => c.1 = m)
      = l.find? (fun c => c.1 = m) := by
  induction l with
  | nil => rfl
  | cons c rest ih =>
    by_cases hc : c.1 = n
    · rw [List.map_cons, if_pos hc, List.find?_cons_of_neg, List.find?_cons_of_neg]
      · exact ih
      · simp only [decide_eq_true_eq]
        rw [hc]
        exact fun h => hmn h.symm
      · simp only [decide_eq_true_eq]
        exact fun h => hmn h.symm
    · rw [List.map_cons, if_neg hc]
      by_cases hm : c.1 = m
      · rw [List.find?_cons_of_pos _ (by simpa using hm), List.find?_cons_of_pos _ (by simpa using hm)]
      · rw [List.find?_cons_of_neg _ (by simpa using hm), List.find?_cons_of_neg _ (by simpa using hm)]
        exact ih

theorem find?_eq_of_nodup {l : List (String × List Cell)}
    (hnd : (l.map Prod.fst).Nodup) {c : String × List Cell} (hc : c ∈ l) :
    l.find? (fun x => x.1 = c.1) = some c := by
  induction l with
  | nil => simp at hc
  | cons a rest ih =>
    rw [List.map_cons, List.nodup_cons] at hnd
    rcases List.mem_cons.mp hc with rfl | hrest
    · rw [List.find?_cons_of_pos]
      simp
    · rw [List.find?_cons_of_neg]
      · exact ih hnd.2 hrest
      · simp only [decide_eq_true_eq]
        intro ha
        exact hnd.1 (ha ▸ List.mem_map.mpr ⟨c, hrest, rfl⟩)

theorem find?_filter_of_nodup {l : List (String × List Cell)}
    (hnd : (l.map Prod.fst).Nodup) {c : String × List Cell}
    (hc : l.find? (fun x => x.1 = c.1) = some c) (q : String × List Cell → Bool) :
    (l.filter q).find? (fun x => x.1 = c.1) = if q c then some c else none := by
  induction l with
  | nil => simp at hc
  | cons a rest ih =>
    rw [List.map_cons, List.nodup_cons] at hnd
    by_cases hpa : a.1 = c.1
    case pos =>
      rw [List.find?_cons_of_pos _ (by simpa using hpa)] at hc
      cases hc
      rw [List.filter_cons]
      cases hq : q c with
      | true =>
        rw [if_pos rfl, if_pos rfl, List.find?_cons_of_pos _ (by simp)]
      | false =>
        rw [if_neg (by simp), if_neg (by simp), List.find?_eq_none]
        intro x hx
        simp only [decide_eq_true_eq]
        intro hxc
        apply hnd.1
        rw [← hxc]
        exact List.mem_map.mpr ⟨x, List.mem_of_mem_filter hx, rfl⟩
    case neg =>
      rw [List.find?_cons_of_neg _ (by simpa using hpa)] at hc
      rw [List.filter_cons]
      cases hq : q a with
      | true =>
        rw [if_pos rfl, List.find?_cons_of_neg _ (by simpa using hpa)]
        exact ih hnd.2 hc
      | false =>
        rw [if_neg (by simp)]
        exact ih hnd.2 hc


theorem lookup_of_find? {l : List (String × List Cell)} {n : String}
    {c : String × List Cell} (h : l.find? (fun x => x.1 = n) = some c) :
    lookupCells l n = c.2 := by
  unfold lookupCells
  rw [h]

theorem lookup_of_none {l : List (String × List Cell)} {n : String}
    (h : l.find? (fun x => x.1 = n) = none) : lookupCells l n = [] := by
  unfold lookupCells
  rw [h]

theorem find?_none_of_not_mem {l : List (String × List Cell)} {n : String}
    (h : n ∉ l.map Prod.fst) : l.find? (fun x => x.1 = n) = none := by
  rw [List.find?_eq_none]
  intro c hc
  simp only [decide_eq_true_eq]
  intro hcn
  exact h (hcn ▸ List.mem_map.mpr ⟨c, hc, rfl⟩)

namespace DataFrame

theorem getColD_eq_lookup (df : DataFrame) (n : String) :
    df.getColD n = lookupCells df.cols n := rfl

theorem getColD_eq_nil_of_not_mem {df : DataFrame} {n : String} (h : n ∉ df.names) :
    df.getColD n = [] := by
  rw [getColD_eq_lookup, lookup_of_none (find?_none_of_not_mem h)]

theorem getColD_setCol_self (df : DataFrame) (n : String) (cells : List Cell) :
    (df.setCol n cells).getColD n = cells := by
  unfold setCol
  by_cases hn : n ∈ df.names
  · rw [if_pos hn]
    show lookupCells (df.cols.map (fun c => if c.1 = n then (n, cells) else c)) n = cells
    rw [lookup_of_find? (find?_map_set ((df.mem_names_iff n).mp hn))]
  · rw [if_neg hn]
    show lookupCells (df.cols ++ [(n, cells)]) n = cells
    unfold lookupCells
    rw [find?_append_of_none _ _ _ (find?_none_of_not_mem hn),
      List.find?_cons_of_pos _ (by simp)]

theorem getColD_setCol_ne (df : DataFrame) {m n : String} (h : ¬ m = n) (cells : List Cell) :
    (df.setCol n cells).getColD m = df.getColD m := by
  unfold setCol
  by_cases hn : n ∈ df.names
  · rw [if_pos hn]
    show lookupCells (df.cols.map (fun c => if c.1 = n then (n, cells) else c)) m = _
    rw [getColD_eq_lookup]
    unfold lookupCells
    rw [find?_map_set_ne h]
  · rw [if_neg hn]
    show lookupCells (df.cols ++ [(n, cells)]) m = _
    rw [getColD_eq_lookup]
    unfold lookupCells
    by_cases hm : m ∈ df.names
    · cases hfind : df.cols.find? (fun c => c.1 = m) with
      | none =>
        obtain ⟨cs, hmem⟩ := (df.mem_names_iff m).mp hm
        rw [List.find?_eq_none] at hfind
        exact absurd (by simp : (decide ((m, cs).1 = m) = true)) (hfind _ hmem)
      | some c =>
        rw [List.find?_append, hfind]
        rfl
    · rw [find?_append_of_none _ _ _ (find?_none_of_not_mem hm), find?_none_of_not_mem hm,
        List.find?_cons_of_neg _ (by simp only [decide_eq_true_eq]; exact fun hh => h hh.symm)]
      rfl

theorem setCol_getColD_eq {df : DataFrame} {n : String} (hnd : df.names.Nodup)
    (hn : n ∈ df.names) : df.setCol n (df.getColD n) = df := by
  obtain ⟨cs, hmem⟩ := (df.mem_names_iff n).mp hn
  have hfind : df.cols.find? (fun c => c.1 = n) = some (n, cs) :=
    find?_eq_of_nodup hnd hmem
  have hcol : df.getColD n = cs := by
    rw [getColD_eq_lookup, lookup_of_find? hfind]
  unfold setCol
  rw [if_pos hn]
  have hmap : df.cols.map (fun c => if c.1 = n then (n, df.getColD n) else c) = df.cols := by
    have hcc : ∀ c ∈ df.cols, (if c.1 = n then (n, df.getColD n) else c) = c := by
      intro c hc
      by_cases hcn : c.1 = n
      · rw [if_pos hcn]
        have hceq : c = (n, cs) := by
          have h2 := find?_eq_of_nodup hnd hc
          rw [hcn] at h2
          rw [h2] at hfind
          exact Option.some.inj hfind
        rw [hceq, hcol]
      · rw [if_neg hcn]
    rw [List.map_congr_left hcc]
    exact List.map_id' df.cols
  rw [hmap]

end DataFrame

theorem find?_filter_ne_keep {l : List (String × List Cell)} {n : String}
    (q : String × List Cell → Bool) (hq : ∀ c, c.1 = n → q c = true) :
    (l.filter q).find? (fun c => c.1 = n) = l.find? (fun c => c.1 = n) := by
  induction l with
  | nil => rfl
  | cons c rest ih =>
    by_cases hc : c.1 = n
    · rw [List.filter_cons, if_pos (hq c hc), List.find?_cons_of_pos _ (by simpa using hc),
        List.find?_cons_of_pos _ (by simpa using hc)]
    · rw [List.filter_cons]
      split
      · rw [List.find?_cons_of_neg _ (by simpa using hc), List.find?_cons_of_neg _ (by simpa using hc)]
        exact ih
      · rw [List.find?_cons_of_neg _ (by simpa using hc)]
        exact ih

theorem find?_map_rename_ne {l : List (String × List Cell)} {o n m : String}
    (hmo : ¬ m = o) (hmn : ¬ m = n) :
    (l.map (fun c => if c.1 = o then (n, c.2) else c)).find? (fun c => c.1 = m)
      = l.find? (fun c => c.1 = m) := by
  induction l with
  | nil => rfl
  | cons c rest ih =>
    by_cases hc : c.1 = o
    · rw [List.map_cons, if_pos hc,
        List.find?_cons_of_neg _ (by simp only [decide_eq_true_eq]; exact fun hh => hmn hh.symm),
        List.find?_cons_of_neg _ (by simp only [decide_eq_true_eq]; rw [hc]; exact fun hh => hmo hh.symm)]
      exact ih
    · rw [List.map_cons, if_neg hc]
      by_cases hm : c.1 = m
      · rw [List.find?_cons_of_pos _ (by simpa using hm), List.find?_cons_of_pos _ (by simpa using hm)]
      · rw [List.find?_cons_of_neg _ (by simpa using hm), List.find?_cons_of_neg _ (by simpa using hm)]
        exact ih

theorem find?_map_rename_self {l : List (String × List Cell)} {o n : String}
    (hn : n ∉ l.map Prod.fst) :
    (l.map (fun c => if c.1 = o then (n, c.2) else c)).find? (fun c => c.1 = n)
      = (l.find? (fun c => c.1 = o)).map (fun c => (n, c.2)) := by
  induction l with
  | nil => rfl
  | cons c rest ih =>
    have hn_rest : n ∉ rest.map Prod.fst := fun hr => hn (List.mem_cons_of_mem _ hr)
    have hn_c : ¬ c.1 = n := by
      intro hcn
      exact hn (hcn ▸ List.mem_map.mpr ⟨c, List.mem_cons_self c rest, rfl⟩)
    by_cases hc : c.1 = o
    · rw [List.map_cons, if_pos hc, List.find?_cons_of_pos _ (by simp),
        List.find?_cons_of_pos _ (by simpa using hc)]
      rfl
    · rw [List.map_cons, if_neg hc, List.find?_cons_of_neg _ (by simpa using hn_c),
        List.find?_cons_of_neg _ (by simpa using hc)]
      exact ih hn_rest

namespace DataFrame

theorem getColD_dropCol_ne (df : DataFrame) {m n : String} (h : ¬ m = n) :
    (df.dropCol n).getColD m = df.getColD m := by
  unfold dropCol
  show lookupCells (df.cols.filter _) m = _
  rw [getColD_eq_lookup]
  unfold lookupCells
  rw [find?_filter_ne_keep]
  intro c hc
  simp only [decide_not, Bool.not_eq_true', decide_eq_false_iff_not]
  rw [hc]
  exact h

theorem getColD_renameCol_ne (df : DataFrame) {o n m : String} (h1 : ¬ m = o)
    (h2 : ¬ m = n) : (df.renameCol o n).getColD m = df.getColD m := by
  unfold renameCol
  show lookupCells (df.cols.map _) m = _
  rw [getColD_eq_lookup]
  unfold lookupCells
  rw [find?_map_rename_ne h1 h2]

theorem getColD_renameCol_self (df : DataFrame) {o n : String} (hn : n ∉ df.names) :
    (df.renameCol o n).getColD n = df.getColD o := by
  unfold renameCol
  show lookupCells (df.cols.map _) n = _
  rw [getColD_eq_lookup]
  unfold lookupCells
  rw [find?_map_rename_self hn]
  cases hfind : df.cols.find? (fun c => c.1 = o) <;> rfl

end DataFrame

/-!
Lemmas: Lemmas on dropping all-missing columns and deduplication
-/

namespace DataFrame

theorem nrows_dropAllNA (df : DataFrame) : (dropAllNA df).nrows = df.nrows := rfl

theorem nrows_dedupCols (df : DataFrame) : (dedupCols df).nrows = df.nrows := rfl

theorem names_dropAllNA_sublist (df : DataFrame) :
    List.Sublist (dropAllNA df).names (df.names) :=
  (List.filter_sublist df.cols).map Prod.fst

theorem nodup_names_dropAllNA (df : DataFrame) (h : df.names.Nodup) :
    (dropAllNA df).names.Nodup :=
  h.sublist (names_dropAllNA_sublist df)

theorem cols_dropAllNA_any (df : DataFrame) :
    ∀ c ∈ (dropAllNA df).cols, c.2.any (fun x => ¬ x = Cell.na) = true := by
  intro c hc
  have hc2 : c ∈ df.cols.filter (fun c => c.2.any (fun x => ¬ x = Cell.na)) := hc
  exact (List.mem_filter.mp hc2).2

theorem mem_names_dropAllNA_of {df : DataFrame} {n : String} {cells : List Cell}
    (hmem : (n, cells) ∈ df.cols) (hdata : cells.any (fun x => ¬ x = Cell.na) = true) :
    n ∈ (dropAllNA df).names := by
  apply ((dropAllNA df).mem_names_iff n).mpr
  exact ⟨cells, List.mem_filter.mpr ⟨hmem, hdata⟩⟩

theorem getColD_dropAllNA {df : DataFrame} (hnd : df.names.Nodup) (n : String) :
    (dropAllNA df).getColD n =
      if (df.getColD n).any (fun x => ¬ x = Cell.na) then df.getColD n else [] := by
  by_cases hn : n ∈ df.names
  · obtain ⟨cs, hmem⟩ := (df.mem_names_iff n).mp hn
    have hfind : df.cols.find? (fun c => c.1 = n) = some (n, cs) := find?_eq_of_nodup hnd hmem
    have hcol : df.getColD n = cs := by rw [getColD_eq_lookup, lookup_of_find? hfind]
    have hfil := find?_filter_of_nodup (c := (n, cs)) hnd hfind
      (fun c => c.2.any (fun x => ¬ x = Cell.na))
    have hfil2 : (df.cols.filter (fun c => c.2.any (fun x => ¬ x = Cell.na))).find?
        (fun x => x.1 = n)
        = if (cs.any fun x => decide (¬ x = Cell.na)) = true then some (n, cs) else none := hfil
    rw [getColD_eq_lookup]
    show lookupCells (df.cols.filter (fun c => c.2.any (fun x => ¬ x = Cell.na))) n = _
    unfold lookupCells
    rw [hfil2, hcol]
    by_cases hdata : (cs.any fun x => decide (¬ x = Cell.na)) = true
    · rw [if_pos hdata, if_pos hdata]
    · rw [if_neg hdata, if_neg hdata]
  · have h2 : n ∉ (dropAllNA df).names :=
      fun hmem => hn (List.Sublist.mem hmem (names_dropAllNA_sublist df))
    rw [getColD_eq_nil_of_not_mem h2, getColD_eq_nil_of_not_mem hn]
    simp

theorem mem_names_dropAllNA_iff {df : DataFrame} (hnd : df.names.Nodup) (n : String) :
    n ∈ (dropAllNA df).names ↔
      n ∈ df.names ∧ (df.getColD n).any (fun x => ¬ x = Cell.na) = true := by
  constructor
  · intro h
    have hn : n ∈ df.names := List.Sublist.mem h (names_dropAllNA_sublist df)
    refine ⟨hn, ?_⟩
    by_contra hdata
    obtain ⟨cs, hmem⟩ := ((dropAllNA df).mem_names_iff n).mp h
    have hany := List.of_mem_filter hmem
    have hcells : (dropAllNA df).getColD n = cs := by
      rw [getColD_eq_lookup,
        lookup_of_find? (find?_eq_of_nodup (nodup_names_dropAllNA df hnd) hmem)]
    rw [getColD_dropAllNA hnd, if_neg (by simpa using hdata)] at hcells
    rw [← hcells] at hany
    simp at hany
  · intro ⟨hn, hdata⟩
    obtain ⟨cs, hmem⟩ := (df.mem_names_iff n).mp hn
    have hcol : df.getColD n = cs := by
      rw [getColD_eq_lookup, lookup_of_find? (find?_eq_of_nodup hnd hmem)]
    exact mem_names_dropAllNA_of hmem (hcol ▸ hdata)

theorem dedupColsAux_sublist : ∀ (l : List (String × List Cell)) (seen : List String),
    List.Sublist (dedupColsAux l seen) l := by
  intro l
  induction l with
  | nil => intro seen; exact List.Sublist.refl []
  | cons c rest ih =>
    intro seen
    unfold dedupColsAux
    split
    · exact List.Sublist.cons c (ih seen)
    · exact List.Sublist.cons₂ c (ih (c.1 :: seen))

theorem dedupColsAux_eq_self : ∀ (l : List (String × List Cell)) (seen : List String),
    (l.map Prod.fst).Nodup → (∀ c ∈ l, c.1 ∉ seen) → dedupColsAux l seen = l := by
  intro l
  induction l with
  | nil => intro seen _ _; rfl
  | cons c rest ih =>
    intro seen hnd hseen
    rw [List.map_cons, List.nodup_cons] at hnd
    unfold dedupColsAux
    rw [if_neg (hseen c (List.mem_cons_self c rest))]
    rw [ih (c.1 :: seen) hnd.2]
    intro x hx
    rw [List.mem_cons]
    rintro (hxc | hxs)
    · exact hnd.1 (hxc ▸ List.mem_map.mpr ⟨x, hx, rfl⟩)
    · exact hseen x (List.mem_cons_of_mem c hx) hxs

theorem dedupCols_eq_self {df : DataFrame} (hnd : df.names.Nodup) : dedupCols df = df := by
  unfold dedupCols
  rw [dedupColsAux_eq_self df.cols [] hnd (by simp)]

theorem dedupColsAux_names_spec : ∀ (l : List (String × List Cell)) (seen : List String),
    ((dedupColsAux l seen).map Prod.fst).Nodup
      ∧ ∀ x ∈ (dedupColsAux l seen).map Prod.fst, x ∉ seen := by
  intro l
  induction l with
  | nil =>
    intro seen
    refine ⟨by exact List.nodup_nil, ?_⟩
    intro x hx
    simp [dedupColsAux] at hx
  | cons c rest ih =>
    intro seen
    unfold dedupColsAux
    split
    · exact ih seen
    · rename_i hcs
      obtain ⟨hnd, hsp⟩ := ih (c.1 :: seen)
      rw [List.map_cons, List.nodup_cons]
      refine ⟨⟨?_, hnd⟩, ?_⟩
      · intro hmem
        exact hsp c.1 hmem (List.mem_cons_self c.1 seen)
      · intro x hx
        rcases List.mem_cons.mp hx with rfl | hx2
        · exact hcs
        · exact fun hxs => hsp x hx2 (List.mem_cons_of_mem c.1 hxs)

theorem nodup_names_dedupCols (df : DataFrame) : (dedupCols df).names.Nodup :=
  (dedupColsAux_names_spec df.cols []).1

theorem mem_names_dedupCols_iff (df : DataFrame) (n : String) :
    n ∈ (dedupCols df).names ↔ n ∈ df.names := by
  constructor
  · intro h
    exact List.Sublist.mem h ((dedupColsAux_sublist df.cols []).map Prod.fst)
  · intro h
    unfold dedupCols names at *
    have main : ∀ (l : List (String × List Cell)) (seen : List String), n ∈ l.map Prod.fst →
        n ∉ seen → n ∈ (dedupColsAux l seen).map Prod.fst := by
      intro l
      induction l with
      | nil => intro seen h1 _; simp at h1
      | cons c rest ih =>
        intro seen h1 h2
        unfold dedupColsAux
        rcases List.mem_cons.mp h1 with heq | hrest
        · rw [if_neg (heq ▸ h2)]
          rw [List.map_cons]
          exact List.mem_cons.mpr (Or.inl heq)
        · split
          · exact ih seen hrest h2
          · rename_i hcs
            rw [List.map_cons]
            by_cases hnc : n = c.1
            · exact List.mem_cons.mpr (Or.inl hnc)
            · refine List.mem_cons.mpr (Or.inr (ih (c.1 :: seen) hrest ?_))
              rw [List.mem_cons]
              rintro (h3 | h4)
              · exact hnc h3
              · exact h2 h4
    exact main df.cols [] h (by simp)

theorem getColD_dedupCols (df : DataFrame) (hnd : df.names.Nodup) (n : String) :
    (dedupCols df).getColD n = df.getColD n := by
  rw [dedupCols_eq_self hnd]

theorem cols_dedupCols_mem {df : DataFrame} {c : String × List Cell}
    (h : c ∈ (dedupCols df).cols) : c ∈ df.cols :=
  List.Sublist.mem h (dedupColsAux_sublist df.cols [])

end DataFrame

/-!
Lemmas: Lemmas on the step-1 rename/co-fill loop
-/

open DataFrame


theorem nrows_cofillStep (df : DataFrame) (c v : String) :
    (cofillStep df c v).nrows = df.nrows := by
  unfold cofillStep
  split
  · split
    · rfl
    · rw [nrows_dropCol, nrows_setCol]
  · rfl

theorem not_mem_names_cofillStep_self (df : DataFrame) (c v : String) :
    v ∉ (cofillStep df c v).names := by
  unfold cofillStep
  by_cases hv : v ∈ df.names
  · rw [if_pos hv]
    by_cases hc : c ∉ df.names
    · rw [if_pos hc, names_renameCol]
      intro hmem
      obtain ⟨x, hx, hxv⟩ := List.mem_map.mp hmem
      by_cases hxo : x = v
      · rw [if_pos hxo] at hxv
        exact (hxv ▸ hc) hv
      · rw [if_neg hxo] at hxv
        exact hxo hxv
    · rw [if_neg hc, names_dropCol]
      intro hmem
      have h2 := (List.mem_filter.mp hmem).2
      simp at h2
  · rw [if_neg hv]
    exact hv

theorem mem_names_cofillStep_sub {df : DataFrame} {c v x : String}
    (h : x ∈ (cofillStep df c v).names) : x ∈ df.names ∨ x = c := by
  unfold cofillStep at h
  by_cases hv : v ∈ df.names
  · rw [if_pos hv] at h
    by_cases hc : c ∉ df.names
    · rw [if_pos hc, names_renameCol] at h
      obtain ⟨y, hy, hyx⟩ := List.mem_map.mp h
      by_cases hyv : y = v
      · rw [if_pos hyv] at hyx
        exact Or.inr hyx.symm
      · rw [if_neg hyv] at hyx
        exact Or.inl (hyx ▸ hy)
    · rw [if_neg hc, names_dropCol] at h
      have h2 := (List.mem_filter.mp h).1
      rw [names_setCol_of_mem df (not_not.mp hc)] at h2
      exact Or.inl h2
  · rw [if_neg hv] at h
    exact Or.inl h

theorem not_mem_names_cofillStep_of {df : DataFrame} {c v x : String}
    (h1 : x ∉ df.names) (h2 : ¬ x = c) : x ∉ (cofillStep df c v).names := by
  intro hmem
  rcases mem_names_cofillStep_sub hmem with h | h
  · exact h1 h
  · exact h2 h

theorem mem_names_cofillStep_keep {df : DataFrame} {c v x : String}
    (h : x ∈ df.names) (hxv : ¬ x = v) : x ∈ (cofillStep df c v).names := by
  unfold cofillStep
  by_cases hv : v ∈ df.names
  · rw [if_pos hv]
    by_cases hc : c ∉ df.names
    · rw [if_pos hc, names_renameCol]
      refine List.mem_map.mpr ⟨x, h, ?_⟩
      rw [if_neg hxv]
    · rw [if_neg hc, names_dropCol]
      refine List.mem_filter.mpr ⟨?_, by simpa using hxv⟩
      rw [names_setCol_of_mem df (not_not.mp hc)]
      exact h
  · rw [if_neg hv]
    exact h

theorem nodup_names_cofillStep {df : DataFrame} (c v : String) (h : df.names.Nodup) :
    (cofillStep df c v).names.Nodup := by
  unfold cofillStep
  by_cases hv : v ∈ df.names
  · rw [if_pos hv]
    by_cases hc : c ∉ df.names
    · rw [if_pos hc]
      exact nodup_names_renameCol df hc h
    · rw [if_neg hc]
      exact nodup_names_dropCol _ v (nodup_names_setCol df _ h)
  · rw [if_neg hv]
    exact h

theorem getColD_cofillStep_other {df : DataFrame} {c v x : String}
    (hxc : ¬ x = c) (hxv : ¬ x = v) : (cofillStep df c v).getColD x = df.getColD x := by
  unfold cofillStep
  by_cases hv : v ∈ df.names
  · rw [if_pos hv]
    by_cases hc : c ∉ df.names
    · rw [if_pos hc]
      exact getColD_renameCol_ne df hxv hxc
    · rw [if_neg hc]
      rw [getColD_dropCol_ne _ hxv, getColD_setCol_ne _ hxc]
  · rw [if_neg hv]

theorem getColD_length {df : DataFrame} (h : df.WF) {n : String} (hn : n ∈ df.names) :
    (df.getColD n).length = df.nrows := by
  obtain ⟨cs, hmem⟩ := (df.mem_names_iff n).mp hn
  unfold DataFrame.getColD
  cases hfind : df.cols.find? (fun c => c.1 = n) with
  | none =>
    rw [List.find?_eq_none] at hfind
    exact absurd (by simp : (decide ((n, cs).1 = n) = true)) (hfind _ hmem)
  | some c =>
    exact h c (List.mem_of_find?_eq_some hfind)

theorem WF_setCol {df : DataFrame} (h : df.WF) {n : String} {cells : List Cell}
    (hlen : cells.length = df.nrows) : (df.setCol n cells).WF := by
  intro c hc
  rw [nrows_setCol]
  unfold DataFrame.setCol at hc
  split at hc
  · obtain ⟨d, hd, hdc⟩ := List.mem_map.mp hc
    by_cases hdn : d.1 = n
    · rw [if_pos hdn] at hdc
      rw [← hdc]
      exact hlen
    · rw [if_neg hdn] at hdc
      exact hdc ▸ h d hd
  · rcases List.mem_append.mp hc with h1 | h1
    · exact h c h1
    · rw [List.mem_singleton] at h1
      rw [h1]
      exact hlen

theorem WF_renameCol {df : DataFrame} (h : df.WF) (o n : String) : (df.renameCol o n).WF := by
  intro c hc
  obtain ⟨d, hd, hdc⟩ := List.mem_map.mp hc
  rw [nrows_renameCol]
  by_cases hdo : d.1 = o
  · rw [if_pos hdo] at hdc
    rw [← hdc]
    exact h d hd
  · rw [if_neg hdo] at hdc
    exact hdc ▸ h d hd

theorem WF_dropCol {df : DataFrame} (h : df.WF) (n : String) : (df.dropCol n).WF := by
  intro c hc
  exact h c (List.mem_of_mem_filter hc)

theorem WF_cofillStep {df : DataFrame} (h : df.WF) (c v : String) : (cofillStep df c v).WF := by
  unfold cofillStep
  by_cases hv : v ∈ df.names
  · rw [if_pos hv]
    by_cases hc : c ∉ df.names
    · rw [if_pos hc]
      exact WF_renameCol h v c
    · rw [if_neg hc]
      apply WF_dropCol
      apply WF_setCol h
      rw [fillna_length, getColD_length h (not_not.mp hc), getColD_length h hv]
      exact Nat.min_self _
  · rw [if_neg hv]
    exact h

theorem pairFold_cons (df : DataFrame) (c v : String) (vs : List String) :
    pairFold df c (v :: vs) = pairFold (cofillStep df c v) c vs := rfl

theorem mapFold_cons (df : DataFrame) (p : String × List String)
    (hm : List (String × List String)) :
    mapFold df (p :: hm) = mapFold (pairFold df p.1 p.2) hm := rfl

theorem nrows_pairFold (c : String) (vs : List String) : ∀ (df : DataFrame),
    (pairFold df c vs).nrows = df.nrows := by
  induction vs with
  | nil => intro df; rfl
  | cons v rest ih =>
    intro df
    rw [pairFold_cons, ih, nrows_cofillStep]

theorem nrows_mapFold (hm : List (String × List String)) : ∀ (df : DataFrame),
    (mapFold df hm).nrows = df.nrows := by
  induction hm with
  | nil => intro df; rfl
  | cons p rest ih =>
    intro df
    rw [mapFold_cons, ih, nrows_pairFold]

theorem nodup_names_pairFold (c : String) (vs : List String) : ∀ {df : DataFrame},
    df.names.Nodup → (pairFold df c vs).names.Nodup := by
  induction vs with
  | nil => intro df h; exact h
  | cons v rest ih =>
    intro df h
    rw [pairFold_cons]
    exact ih (nodup_names_cofillStep c v h)

theorem nodup_names_mapFold (hm : List (String × List String)) : ∀ {df : DataFrame},
    df.names.Nodup → (mapFold df hm).names.Nodup := by
  induction hm with
  | nil => intro df h; exact h
  | cons p rest ih =>
    intro df h
    rw [mapFold_cons]
    exact ih (nodup_names_pairFold p.1 p.2 h)

theorem WF_pairFold (c : String) (vs : List String) : ∀ {df : DataFrame},
    df.WF → (pairFold df c vs).WF := by
  induction vs with
  | nil => intro df h; exact h
  | cons v rest ih =>
    intro df h
    rw [pairFold_cons]
    exact ih (WF_cofillStep h c v)

theorem WF_mapFold (hm : List (String × List String)) : ∀ {df : DataFrame},
    df.WF → (mapFold df hm).WF := by
  induction hm with
  | nil => intro df h; exact h
  | cons p rest ih =>
    intro df h
    rw [mapFold_cons]
    exact ih (WF_pairFold p.1 p.2 h)

theorem pairFold_not_mem (c : String) (vs : List String) : ∀ {df : DataFrame} {x : String},
    x ∉ df.names → ¬ x = c → x ∉ (pairFold df c vs).names := by
  induction vs with
  | nil => intro df x h _; exact h
  | cons v rest ih =>
    intro df x h hxc
    rw [pairFold_cons]
    exact ih (not_mem_names_cofillStep_of h hxc) hxc

theorem mapFold_not_mem (hm : List (String × List String)) : ∀ {df : DataFrame} {x : String},
    x ∉ df.names → (∀ p ∈ hm, ¬ x = p.1) → x ∉ (mapFold df hm).names := by
  induction hm with
  | nil => intro df x h _; exact h
  | cons p rest ih =>
    intro df x h hp
    rw [mapFold_cons]
    exact ih (pairFold_not_mem p.1 p.2 h (hp p (List.mem_cons_self p rest)))
      (fun q hq => hp q (List.mem_cons_of_mem p hq))

theorem pairFold_self_after (c : String) (vs : List String) : ∀ {df : DataFrame} {v : String},
    v ∈ vs → v ∉ (pairFold df c vs).names ∨ v = c := by
  induction vs with
  | nil => intro df v h; simp at h
  | cons w rest ih =>
    intro df v hv
    by_cases hvc : v = c
    · exact Or.inr hvc
    rcases List.mem_cons.mp hv with rfl | hrest
    · rw [pairFold_cons]
      exact Or.inl (pairFold_not_mem c rest (not_mem_names_cofillStep_self df c v) hvc)
    · rw [pairFold_cons]
      exact ih hrest

theorem mapFold_variant_gone (hm : List (String × List String)) :
    ∀ {df : DataFrame} {c v : String} {vs : List String},
    (c, vs) ∈ hm → v ∈ vs → ¬ v = c →
    (∀ p ∈ hm, ∀ q ∈ hm, p.1 ∈ q.2 → p.1 = q.1) →
    v ∉ (mapFold df hm).names := by
  induction hm with
  | nil => intro df c v vs h; simp at h
  | cons p rest ih =>
    intro df c v vs hmem hv hvc h1
    rw [mapFold_cons]
    rcases List.mem_cons.mp hmem with rfl | hrest
    · -- our pair is processed first; afterwards v is gone and no later pair renames to v
      have h2 : v ∉ (pairFold df c vs).names := by
        rcases pairFold_self_after c vs hv with h | h
        · exact h
        · exact absurd h hvc
      apply mapFold_not_mem rest h2
      intro q hq hvq
      have := h1 q (List.mem_cons_of_mem _ hq) (c, vs) (List.mem_cons_self _ _)
        (by rw [← hvq]; exact hv)
      exact hvc (hvq.trans this)
    · exact ih hrest hv hvc
        (fun a ha b hb => h1 a (List.mem_cons_of_mem p ha) b (List.mem_cons_of_mem p hb))

theorem mapFold_selfvariant_gone (hm : List (String × List String)) :
    ∀ {df : DataFrame} {c : String} {vs0 : List String},
    (c, vs0 ++ [c]) ∈ hm →
    (hm.map Prod.fst).Nodup →
    c ∉ (mapFold df hm).names := by
  induction hm with
  | nil => intro df c vs0 h; simp at h
  | cons p rest ih =>
    intro df c vs0 hmem h2
    rw [List.map_cons, List.nodup_cons] at h2
    rw [mapFold_cons]
    rcases List.mem_cons.mp hmem with rfl | hrest
    · have h3 : pairFold df c (vs0 ++ [c]) = cofillStep (pairFold df c vs0) c c := by
        unfold pairFold
        rw [List.foldl_append]
        rfl
      have h4 : c ∉ (pairFold df c (vs0 ++ [c])).names := by
        rw [h3]
        exact not_mem_names_cofillStep_self _ c c
      apply mapFold_not_mem rest h4
      intro q hq hcq
      exact h2.1 (hcq ▸ List.mem_map.mpr ⟨q, hq, rfl⟩)
    · exact ih hrest h2.2

theorem pairFold_getColD_other (c : String) (vs : List String) :
    ∀ {df : DataFrame} {x : String}, ¬ x = c → (∀ v ∈ vs, ¬ x = v) →
    (pairFold df c vs).getColD x = df.getColD x := by
  induction vs with
  | nil => intro df x _ _; rfl
  | cons v rest ih =>
    intro df x hxc hxv
    rw [pairFold_cons, ih hxc (fun w hw => hxv w (List.mem_cons_of_mem v hw)),
      getColD_cofillStep_other hxc (hxv v (List.mem_cons_self v rest))]

theorem mapFold_getColD_other (hm : List (String × List String)) :
    ∀ {df : DataFrame} {x : String},
    (∀ p ∈ hm, ¬ x = p.1 ∧ ∀ v ∈ p.2, ¬ x = v) →
    (mapFold df hm).getColD x = df.getColD x := by
  induction hm with
  | nil => intro df x _; rfl
  | cons p rest ih =>
    intro df x h
    rw [mapFold_cons, ih (fun q hq => h q (List.mem_cons_of_mem p hq)),
      pairFold_getColD_other p.1 p.2 (h p (List.mem_cons_self p rest)).1
        (h p (List.mem_cons_self p rest)).2]

theorem cofillStep_id {df : DataFrame} {c v : String} (h : v ∉ df.names) :
    cofillStep df c v = df := by
  unfold cofillStep
  rw [if_neg h]

theorem pairFold_id (c : String) (vs : List String) : ∀ {df : DataFrame},
    (∀ v ∈ vs, v ∉ df.names) → pairFold df c vs = df := by
  induction vs with
  | nil => intro df _; rfl
  | cons v rest ih =>
    intro df h
    rw [pairFold_cons, cofillStep_id (h v (List.mem_cons_self v rest))]
    exact ih (fun w hw => h w (List.mem_cons_of_mem v hw))

theorem mapFold_id (hm : List (String × List String)) : ∀ {df : DataFrame},
    (∀ p ∈ hm, ∀ v ∈ p.2, v ∉ df.names) → mapFold df hm = df := by
  induction hm with
  | nil => intro df _; rfl
  | cons p rest ih =>
    intro df h
    rw [mapFold_cons, pairFold_id p.1 p.2 (h p (List.mem_cons_self p rest))]
    exact ih (fun q hq => h q (List.mem_cons_of_mem p hq))


theorem namesStripped_stripNames (df : DataFrame) : NamesStripped (stripNames df) := by
  intro n hn
  unfold stripNames names at hn
  rw [List.map_map] at hn
  obtain ⟨c, _, hcn⟩ := List.mem_map.mp hn
  rw [← hcn]
  exact pyStrip_idem c.1

theorem namesStripped_cofillStep {df : DataFrame} {c v : String} (h : NamesStripped df)
    (hc : pyStrip c = c) : NamesStripped (cofillStep df c v) := by
  intro n hn
  rcases mem_names_cofillStep_sub hn with h2 | rfl
  · exact h n h2
  · exact hc

theorem namesStripped_pairFold (c : String) (vs : List String) : ∀ {df : DataFrame},
    NamesStripped df → pyStrip c = c → NamesStripped (pairFold df c vs) := by
  induction vs with
  | nil => intro df h _; exact h
  | cons v rest ih =>
    intro df h hc
    rw [pairFold_cons]
    exact ih (namesStripped_cofillStep h hc) hc

theorem namesStripped_mapFold (hm : List (String × List String)) : ∀ {df : DataFrame},
    NamesStripped df → (∀ p ∈ hm, pyStrip p.1 = p.1) → NamesStripped (mapFold df hm) := by
  induction hm with
  | nil => intro df h _; exact h
  | cons p rest ih =>
    intro df h hp
    rw [mapFold_cons]
    exact ih (namesStripped_pairFold p.1 p.2 h (hp p (List.mem_cons_self p rest)))
      (fun q hq => hp q (List.mem_cons_of_mem p hq))

theorem namesStripped_setCol {df : DataFrame} {n : String} {cells : List Cell}
    (h : NamesStripped df) (hn : pyStrip n = n) : NamesStripped (df.setCol n cells) := by
  intro x hx
  rcases (df.mem_names_setCol_iff x n cells).mp hx with h2 | rfl
  · exact h x h2
  · exact hn

theorem colHasData_mem {df : DataFrame} {n : String} (h : colHasData df n = true) :
    n ∈ df.names := by
  by_contra hn
  unfold colHasData at h
  rw [getColD_eq_nil_of_not_mem hn] at h
  simp at h

theorem colHasData_cofillStep_canon {df : DataFrame} {c v : String} (hwf : df.WF)
    (hvc : ¬ v = c) (h : colHasData df c = true ∨ colHasData df v = true) :
    colHasData (cofillStep df c v) c = true := by
  unfold cofillStep
  by_cases hv : v ∈ df.names
  · rw [if_pos hv]
    by_cases hc : c ∉ df.names
    · rw [if_pos hc]
      rcases h with h | h
      · exact absurd (colHasData_mem h) hc
      · unfold colHasData
        rw [getColD_renameCol_self df hc]
        exact h
    · rw [if_neg hc]
      have hcn := not_not.mp hc
      unfold colHasData
      rw [getColD_dropCol_ne _ (fun hh => hvc hh.symm), getColD_setCol_self]
      apply fillna_any
      · rw [getColD_length hwf hcn, getColD_length hwf hv]
      · exact h
  · rw [if_neg hv]
    rcases h with h | h
    · exact h
    · exact absurd (colHasData_mem h) hv

theorem colHasData_pairFold_canon (c : String) (vs : List String) : ∀ {df : DataFrame},
    df.WF → vs.Nodup → (∀ v ∈ vs, ¬ v = c) →
    (colHasData df c = true ∨ ∃ v ∈ vs, colHasData df v = true) →
    colHasData (pairFold df c vs) c = true := by
  induction vs with
  | nil =>
    intro df _ _ _ h
    rcases h with h | h
    · exact h
    · obtain ⟨v, hv, _⟩ := h
      simp at hv
  | cons v rest ih =>
    intro df hwf hnd hvc h
    rw [List.nodup_cons] at hnd
    rw [pairFold_cons]
    have hvne : ¬ v = c := hvc v (List.mem_cons_self v rest)
    rcases h with h | ⟨w, hw, hdw⟩
    · exact ih (WF_cofillStep hwf c v) hnd.2
        (fun w hw => hvc w (List.mem_cons_of_mem v hw))
        (Or.inl (colHasData_cofillStep_canon hwf hvne (Or.inl h)))
    · rcases List.mem_cons.mp hw with rfl | hwr
      · exact ih (WF_cofillStep hwf c w) hnd.2
          (fun u hu => hvc u (List.mem_cons_of_mem w hu))
          (Or.inl (colHasData_cofillStep_canon hwf hvne (Or.inr hdw)))
      · refine ih (WF_cofillStep hwf c v) hnd.2
          (fun u hu => hvc u (List.mem_cons_of_mem v hu)) (Or.inr ⟨w, hwr, ?_⟩)
        unfold colHasData
        rw [getColD_cofillStep_other (hvc w hw) ?_]
        · exact hdw
        · intro hwv
          exact hnd.1 (hwv ▸ hwr)

theorem colHasData_mapFold_keep (hm : List (String × List String)) :
    ∀ {df : DataFrame} {x : String}, colHasData df x = true →
    (∀ p ∈ hm, ¬ x = p.1 ∧ ∀ v ∈ p.2, ¬ x = v) →
    colHasData (mapFold df hm) x = true := by
  intro df x h hc
  unfold colHasData
  rw [mapFold_getColD_other hm hc]
  exact h

theorem colHasData_mapFold_canon (hm : List (String × List String)) :
    ∀ {df : DataFrame} {c : String} {vs : List String},
    (c, vs) ∈ hm → df.WF → vs.Nodup → (∀ v ∈ vs, ¬ v = c) →
    (∀ p ∈ hm, ∀ q ∈ hm, p.1 ∈ q.2 → p.1 = q.1) →
    ((hm.map Prod.fst).Nodup) →
    (∀ p ∈ hm, ∀ q ∈ hm, ∀ x, x ∈ p.2 → x ∈ q.2 → p = q) →
    (colHasData df c = true ∨ ∃ v ∈ vs, colHasData df v = true) →
    colHasData (mapFold df hm) c = true := by
  induction hm with
  | nil => intro df c vs h; simp at h
  | cons p rest ih =>
    intro df c vs hmem hwf hnd hvc h1 h2 h3 hdata
    rw [List.map_cons, List.nodup_cons] at h2
    rw [mapFold_cons]
    rcases List.mem_cons.mp hmem with rfl | hrest
    · have hd2 : colHasData (pairFold df c vs) c = true :=
        colHasData_pairFold_canon c vs hwf hnd hvc hdata
      apply colHasData_mapFold_keep rest hd2
      intro q hq
      have hcq : ¬ c = q.1 := by
        intro hcq
        exact h2.1 (hcq ▸ List.mem_map.mpr ⟨q, hq, rfl⟩)
      refine ⟨hcq, ?_⟩
      intro v hv hcv
      apply hcq
      exact h1 (c, vs) (List.mem_cons_self _ _) q (List.mem_cons_of_mem _ hq)
        (by rw [← hcv] at hv; exact hv)
    · have hcp : ¬ c = p.1 := by
        intro hcp
        exact h2.1 (hcp ▸ List.mem_map.mpr ⟨(c, vs), hrest, rfl⟩)
      have hcnotp2 : c ∉ p.2 := by
        intro hcin
        exact hcp (h1 (c, vs) hmem p (List.mem_cons_self p rest) hcin)
      have htransfer : ∀ y ∈ c :: vs, (pairFold df p.1 p.2).getColD y = df.getColD y := by
        intro y hy
        apply pairFold_getColD_other
        · rcases List.mem_cons.mp hy with rfl | hyv
          · exact hcp
          · intro hyp
            exact hcp (h1 p (List.mem_cons_self p rest) (c, vs) hmem
              (by rw [hyp] at hyv; exact hyv)).symm
        · intro w hw hyw
          rcases List.mem_cons.mp hy with rfl | hyv
          · exact hcnotp2 (hyw ▸ hw)
          · have hpeq := h3 p (List.mem_cons_self p rest) (c, vs) hmem y (hyw ▸ hw) hyv
            exact hcp (congrArg Prod.fst hpeq).symm
      apply ih hrest (WF_pairFold p.1 p.2 hwf) hnd hvc
        (fun a ha b hb => h1 a (List.mem_cons_of_mem p ha) b (List.mem_cons_of_mem p hb))
        h2.2
        (fun a ha b hb => h3 a (List.mem_cons_of_mem p ha) b (List.mem_cons_of_mem p hb))
      rcases hdata with h | ⟨w, hw, hdw⟩
      · left
        unfold colHasData
        rw [htransfer c (List.mem_cons_self c vs)]
        exact h
      · right
        refine ⟨w, hw, ?_⟩
        unfold colHasData
        rw [htransfer w (List.mem_cons_of_mem c hw)]
        exact hdw

/-!
Lemmas: Concrete facts about the alias table, checked by evaluation
-/


theorem headerMap_canon_in_variants : ∀ p ∈ HEADER_MAP, ∀ q ∈ HEADER_MAP,
    p.1 ∈ q.2 → p.1 = q.1 := by decide

theorem headerMap_canons_nodup : (HEADER_MAP.map Prod.fst).Nodup := by decide

theorem headerMap_variants_unique : ∀ p ∈ HEADER_MAP, ∀ q ∈ HEADER_MAP,
    ∀ x ∈ p.2, x ∈ q.2 → p = q := by decide

theorem headerMap_canons_stripped : ∀ p ∈ HEADER_MAP, pyStrip p.1 = p.1 := by decide

theorem headerMap_variants_nodup : ∀ p ∈ HEADER_MAP, p.2.Nodup := by decide

theorem headerMap_self_cases : ∀ p ∈ HEADER_MAP, ∀ v ∈ p.2, v = p.1 →
    p.1 = "Industry" ∨ p.1 = "Municipality" ∨ p.1 = "County" := by decide

theorem headerMap_variants_not_derived : ∀ q ∈ HEADER_MAP, ∀ v ∈ q.2,
    v ∉ derivedNames := by decide

theorem headerMap_industry_mem : ("Industry", [] ++ ["Industry"]) ∈ HEADER_MAP := by decide

theorem derivedNames_stripped : ∀ n ∈ derivedNames, pyStrip n = n := by decide

/-!
Lemmas: Step-2 lemmas: ensuring the money columns
-/

theorem ensureCols_cons (df : DataFrame) (m : String) (rest : List String) :
    ensureCols df (m :: rest) =
      ensureCols (if m ∈ df.names then df else df.setCol m (List.replicate df.nrows Cell.na))
        rest := by
  unfold ensureCols
  rw [List.foldl_cons]

theorem nrows_ensureCols (ms : List String) : ∀ (df : DataFrame),
    (ensureCols df ms).nrows = df.nrows := by
  induction ms with
  | nil => intro df; rfl
  | cons m rest ih =>
    intro df
    rw [ensureCols_cons, ih]
    split
    · rfl
    · rw [nrows_setCol]

theorem cols_ensureCols (ms : List String) : ∀ (df : DataFrame), ms.Nodup →
    (ensureCols df ms).cols = df.cols
      ++ (ms.filter (fun m => m ∉ df.names)).map
          (fun m => (m, List.replicate df.nrows Cell.na)) := by
  induction ms with
  | nil => intro df _; simp [ensureCols]
  | cons m rest ih =>
    intro df hnd
    rw [List.nodup_cons] at hnd
    rw [ensureCols_cons]
    by_cases hm : m ∈ df.names
    · rw [if_pos hm, ih df hnd.2, List.filter_cons, if_neg (by simpa using hm)]
    · rw [if_neg hm]
      rw [ih _ hnd.2]
      have hcols : (df.setCol m (List.replicate df.nrows Cell.na)).cols
          = df.cols ++ [(m, List.replicate df.nrows Cell.na)] := by
        unfold DataFrame.setCol
        rw [if_neg hm]
      have hfil : rest.filter
            (fun x => x ∉ (df.setCol m (List.replicate df.nrows Cell.na)).names)
          = rest.filter (fun x => x ∉ df.names) := by
        apply List.filter_congr
        intro x hx
        rw [names_setCol_of_not_mem df hm]
        have hxm : ¬ x = m := fun hh => hnd.1 (hh ▸ hx)
        simp [List.mem_append, hxm]
      rw [hcols, hfil, nrows_setCol, List.filter_cons, if_pos (by simpa using hm),
        List.map_cons, List.append_assoc, List.singleton_append]

theorem names_ensureCols (ms : List String) (df : DataFrame) (hnd : ms.Nodup) :
    (ensureCols df ms).names = df.names ++ ms.filter (fun m => m ∉ df.names) := by
  unfold DataFrame.names
  rw [cols_ensureCols ms df hnd, List.map_append, List.map_map]
  congr 1
  rw [List.map_congr_left (fun x _ => rfl)]
  exact List.map_id _

theorem mem_names_ensureCols_of {df : DataFrame} {x : String} (ms : List String)
    (hnd : ms.Nodup) (h : x ∈ df.names) : x ∈ (ensureCols df ms).names := by
  rw [names_ensureCols ms df hnd]
  exact List.mem_append_left _ h

theorem mem_names_ensureCols_listed {df : DataFrame} {x : String} {ms : List String}
    (hnd : ms.Nodup) (h : x ∈ ms) : x ∈ (ensureCols df ms).names := by
  rw [names_ensureCols ms df hnd]
  by_cases hx : x ∈ df.names
  · exact List.mem_append_left _ hx
  · exact List.mem_append_right _ (List.mem_filter.mpr ⟨h, by simpa using hx⟩)

theorem mem_names_ensureCols_sub {df : DataFrame} {x : String} {ms : List String}
    (hnd : ms.Nodup) (h : x ∈ (ensureCols df ms).names) : x ∈ df.names ∨ x ∈ ms := by
  rw [names_ensureCols ms df hnd] at h
  rcases List.mem_append.mp h with h | h
  · exact Or.inl h
  · exact Or.inr (List.mem_filter.mp h).1

theorem nodup_names_ensureCols (ms : List String) (df : DataFrame) (hnd : ms.Nodup)
    (h : df.names.Nodup) : (ensureCols df ms).names.Nodup := by
  rw [names_ensureCols ms df hnd, List.nodup_append]
  refine ⟨h, (hnd.filter _), ?_⟩
  intro x hx hx2
  exact (by simpa using (List.mem_filter.mp hx2).2 : x ∉ df.names) hx

theorem getColD_ensureCols_of_mem {df : DataFrame} {n : String} (ms : List String)
    (h : n ∈ df.names) : (ensureCols df ms).getColD n = df.getColD n := by
  induction ms generalizing df with
  | nil => rfl
  | cons m rest ih =>
    rw [ensureCols_cons]
    by_cases hm : m ∈ df.names
    · rw [if_pos hm]
      exact ih h
    · rw [if_neg hm]
      have hnm : ¬ n = m := fun hh => hm (hh ▸ h)
      rw [ih (mem_names_setCol_of df h _), getColD_setCol_ne df hnm]

theorem getColD_ensureCols_new {df : DataFrame} {n : String} (ms : List String)
    (hms : n ∈ ms) (h : n ∉ df.names) :
    (ensureCols df ms).getColD n = List.replicate df.nrows Cell.na := by
  induction ms generalizing df with
  | nil => simp at hms
  | cons m rest ih =>
    rw [ensureCols_cons]
    rcases List.mem_cons.mp hms with rfl | hrest
    · rw [if_neg h]
      rw [getColD_ensureCols_of_mem rest (mem_names_setCol_self df n _),
        getColD_setCol_self]
    · by_cases hm : m ∈ df.names
      · rw [if_pos hm]
        exact ih hrest h
      · rw [if_neg hm]
        by_cases hnm : n = m
        · subst hnm
          rw [getColD_ensureCols_of_mem rest (mem_names_setCol_self df n _),
            getColD_setCol_self]
        · rw [ih hrest, nrows_setCol]
          intro hmem
          rcases (df.mem_names_setCol_iff n m _).mp hmem with h2 | h2
          · exact h h2
          · exact hnm h2

theorem WF_ensureCols (ms : List String) : ∀ {df : DataFrame}, df.WF →
    (ensureCols df ms).WF := by
  induction ms with
  | nil => intro df h; exact h
  | cons m rest ih =>
    intro df h
    rw [ensureCols_cons]
    split
    · exact ih h
    · exact ih (WF_setCol h (by rw [List.length_replicate]))

theorem namesStripped_ensureCols (ms : List String) (hms : ∀ m ∈ ms, pyStrip m = m) :
    ∀ {df : DataFrame}, NamesStripped df → NamesStripped (ensureCols df ms) := by
  induction ms with
  | nil => intro df h; exact h
  | cons m rest ih =>
    intro df h
    rw [ensureCols_cons]
    have hrest := fun x hx => hms x (List.mem_cons_of_mem m hx)
    split
    · exact ih hrest h
    · exact ih hrest (namesStripped_setCol h (hms m (List.mem_cons_self m rest)))

/-!
Lemmas: Step-3 and step-4 lemmas: derived totals and the flag
-/

theorem replicate_getD_na (n i : Nat) : (List.replicate n Cell.na).getD i Cell.na = Cell.na := by
  rcases Nat.lt_or_ge i n with hi | hi
  · rw [List.getD_eq_getElem _ _ (by simpa using hi), List.getElem_replicate]
  · exact List.getD_eq_default _ _ (by simpa using hi)

theorem harmoniseStep3_eq (df : DataFrame) : harmoniseStep3 df =
    (((df.setCol "Exemption_Total"
        ((List.range df.nrows).map (fun i => Cell.num (exemptionRow df i)))).setCol
      "PILOT_Total" ((List.range df.nrows).map (fun i => Cell.num (pilotRow df i)))).setCol
      "State_Award_Total"
        ((List.range df.nrows).map (fun i => Cell.num (stateAwardRow df i)))).setCol
      "Total_Incentive"
        ((List.range df.nrows).map
          (fun i => Cell.num (exemptionRow df i + stateAwardRow df i - pilotRow df i))) := rfl

theorem nrows_step3 (df : DataFrame) : (harmoniseStep3 df).nrows = df.nrows := by
  rw [harmoniseStep3_eq, nrows_setCol, nrows_setCol, nrows_setCol, nrows_setCol]

theorem getColD_step3_other {df : DataFrame} {n : String}
    (h1 : ¬ n = "Exemption_Total") (h2 : ¬ n = "PILOT_Total")
    (h3 : ¬ n = "State_Award_Total") (h4 : ¬ n = "Total_Incentive") :
    (harmoniseStep3 df).getColD n = df.getColD n := by
  rw [harmoniseStep3_eq, getColD_setCol_ne _ h4, getColD_setCol_ne _ h3,
    getColD_setCol_ne _ h2, getColD_setCol_ne _ h1]

theorem getColD_step3_ET (df : DataFrame) : (harmoniseStep3 df).getColD "Exemption_Total"
    = (List.range df.nrows).map (fun i => Cell.num (exemptionRow df i)) := by
  rw [harmoniseStep3_eq, getColD_setCol_ne _ (by decide), getColD_setCol_ne _ (by decide),
    getColD_setCol_ne _ (by decide), getColD_setCol_self]

theorem getColD_step3_PT (df : DataFrame) : (harmoniseStep3 df).getColD "PILOT_Total"
    = (List.range df.nrows).map (fun i => Cell.num (pilotRow df i)) := by
  rw [harmoniseStep3_eq, getColD_setCol_ne _ (by decide), getColD_setCol_ne _ (by decide),
    getColD_setCol_self]

theorem getColD_step3_SAT (df : DataFrame) : (harmoniseStep3 df).getColD "State_Award_Total"
    = (List.range df.nrows).map (fun i => Cell.num (stateAwardRow df i)) := by
  rw [harmoniseStep3_eq, getColD_setCol_ne _ (by decide), getColD_setCol_self]

theorem getColD_step3_TI (df : DataFrame) : (harmoniseStep3 df).getColD "Total_Incentive"
    = (List.range df.nrows).map
        (fun i => Cell.num (exemptionRow df i + stateAwardRow df i - pilotRow df i)) := by
  rw [harmoniseStep3_eq, getColD_setCol_self]

theorem nodup_names_step3 {df : DataFrame} (h : df.names.Nodup) :
    (harmoniseStep3 df).names.Nodup := by
  rw [harmoniseStep3_eq]
  exact nodup_names_setCol _ _ (nodup_names_setCol _ _ (nodup_names_setCol _ _
    (nodup_names_setCol _ _ h)))

theorem WF_step3 {df : DataFrame} (h : df.WF) : (harmoniseStep3 df).WF := by
  rw [harmoniseStep3_eq]
  have hlen : ∀ (f : Nat → Cell), ((List.range df.nrows).map f).length = df.nrows := by
    intro f
    rw [List.length_map, List.length_range]
  apply WF_setCol
  · apply WF_setCol
    · apply WF_setCol
      · apply WF_setCol h
        rw [hlen]
      · rw [hlen, nrows_setCol]
    · rw [hlen, nrows_setCol, nrows_setCol]
  · rw [hlen, nrows_setCol, nrows_setCol, nrows_setCol]

theorem namesStripped_step3 {df : DataFrame} (h : NamesStripped df) :
    NamesStripped (harmoniseStep3 df) := by
  rw [harmoniseStep3_eq]
  exact namesStripped_setCol (namesStripped_setCol (namesStripped_setCol
    (namesStripped_setCol h (by decide)) (by decide)) (by decide)) (by decide)

theorem mem_names_step3_sub {df : DataFrame} {x : String}
    (h : x ∈ (harmoniseStep3 df).names) : x ∈ df.names ∨ x = "Exemption_Total"
      ∨ x = "PILOT_Total" ∨ x = "State_Award_Total" ∨ x = "Total_Incentive" := by
  rw [harmoniseStep3_eq] at h
  rcases (mem_names_setCol_iff _ x _ _).mp h with h | h
  · rcases (mem_names_setCol_iff _ x _ _).mp h with h | h
    · rcases (mem_names_setCol_iff _ x _ _).mp h with h | h
      · rcases (mem_names_setCol_iff _ x _ _).mp h with h | h
        · exact Or.inl h
        · exact Or.inr (Or.inl h)
      · exact Or.inr (Or.inr (Or.inl h))
    · exact Or.inr (Or.inr (Or.inr (Or.inl h)))
  · exact Or.inr (Or.inr (Or.inr (Or.inr h)))

theorem mem_names_step3_of {df : DataFrame} {x : String} (h : x ∈ df.names) :
    x ∈ (harmoniseStep3 df).names := by
  rw [harmoniseStep3_eq]
  exact mem_names_setCol_of _ (mem_names_setCol_of _ (mem_names_setCol_of _
    (mem_names_setCol_of _ h _) _) _) _

theorem harmoniseStep4_of_mem {df : DataFrame} (h : "Related_Project_ID" ∈ df.names) :
    harmoniseStep4 df = df.setCol "Is_MultiPhase"
      ((List.range df.nrows).map
        (fun i => Cell.bool (¬ df.getCell "Related_Project_ID" i = Cell.na))) := by
  unfold harmoniseStep4
  rw [if_pos h]

theorem harmoniseStep4_of_not_mem {df : DataFrame} (h : "Related_Project_ID" ∉ df.names) :
    harmoniseStep4 df = (df.setCol "Related_Project_ID"
        (List.replicate df.nrows Cell.na)).setCol "Is_MultiPhase"
      ((List.range df.nrows).map (fun _ => Cell.bool false)) := by
  unfold harmoniseStep4
  rw [if_neg h]
  dsimp only
  congr 1
  rw [nrows_setCol]
  apply List.map_congr_left
  intro i _
  unfold DataFrame.getCell
  rw [getColD_setCol_self, replicate_getD_na]
  simp

theorem nrows_step4 (df : DataFrame) : (harmoniseStep4 df).nrows = df.nrows := by
  by_cases h : "Related_Project_ID" ∈ df.names
  · rw [harmoniseStep4_of_mem h, nrows_setCol]
  · rw [harmoniseStep4_of_not_mem h, nrows_setCol, nrows_setCol]

theorem getColD_step4_other {df : DataFrame} {n : String}
    (h1 : ¬ n = "Related_Project_ID") (h2 : ¬ n = "Is_MultiPhase") :
    (harmoniseStep4 df).getColD n = df.getColD n := by
  by_cases h : "Related_Project_ID" ∈ df.names
  · rw [harmoniseStep4_of_mem h, getColD_setCol_ne _ h2]
  · rw [harmoniseStep4_of_not_mem h, getColD_setCol_ne _ h2, getColD_setCol_ne _ h1]

theorem getColD_step4_IMP (df : DataFrame) : (harmoniseStep4 df).getColD "Is_MultiPhase"
    = (List.range df.nrows).map
        (fun i => Cell.bool (¬ df.getCell "Related_Project_ID" i = Cell.na)) := by
  by_cases h : "Related_Project_ID" ∈ df.names
  · rw [harmoniseStep4_of_mem h, getColD_setCol_self]
  · rw [harmoniseStep4_of_not_mem h, getColD_setCol_self]
    apply List.map_congr_left
    intro i _
    unfold DataFrame.getCell
    rw [getColD_eq_nil_of_not_mem h]
    simp

theorem getColD_step4_Rel_of_mem {df : DataFrame} (h : "Related_Project_ID" ∈ df.names) :
    (harmoniseStep4 df).getColD "Related_Project_ID" = df.getColD "Related_Project_ID" := by
  rw [harmoniseStep4_of_mem h, getColD_setCol_ne _ (by decide)]

theorem getColD_step4_Rel_of_not_mem {df : DataFrame}
    (h : "Related_Project_ID" ∉ df.names) :
    (harmoniseStep4 df).getColD "Related_Project_ID"
      = List.replicate df.nrows Cell.na := by
  rw [harmoniseStep4_of_not_mem h, getColD_setCol_ne _ (by decide), getColD_setCol_self]

theorem mem_names_step4_IMP (df : DataFrame) :
    "Is_MultiPhase" ∈ (harmoniseStep4 df).names := by
  by_cases h : "Related_Project_ID" ∈ df.names
  · rw [harmoniseStep4_of_mem h]
    exact mem_names_setCol_self _ _ _
  · rw [harmoniseStep4_of_not_mem h]
    exact mem_names_setCol_self _ _ _

theorem mem_names_step4_sub {df : DataFrame} {x : String}
    (h : x ∈ (harmoniseStep4 df).names) :
    x ∈ df.names ∨ x = "Related_Project_ID" ∨ x = "Is_MultiPhase" := by
  by_cases hmem : "Related_Project_ID" ∈ df.names
  · rw [harmoniseStep4_of_mem hmem] at h
    rcases (mem_names_setCol_iff _ x _ _).mp h with h | h
    · exact Or.inl h
    · exact Or.inr (Or.inr h)
  · rw [harmoniseStep4_of_not_mem hmem] at h
    rcases (mem_names_setCol_iff _ x _ _).mp h with h | h
    · rcases (mem_names_setCol_iff _ x _ _).mp h with h | h
      · exact Or.inl h
      · exact Or.inr (Or.inl h)
    · exact Or.inr (Or.inr h)

theorem mem_names_step4_of {df : DataFrame} {x : String} (h : x ∈ df.names) :
    x ∈ (harmoniseStep4 df).names := by
  by_cases hmem : "Related_Project_ID" ∈ df.names
  · rw [harmoniseStep4_of_mem hmem]
    exact mem_names_setCol_of _ h _
  · rw [harmoniseStep4_of_not_mem hmem]
    exact mem_names_setCol_of _ (mem_names_setCol_of _ h _) _

theorem nodup_names_step4 {df : DataFrame} (h : df.names.Nodup) :
    (harmoniseStep4 df).names.Nodup := by
  by_cases hmem : "Related_Project_ID" ∈ df.names
  · rw [harmoniseStep4_of_mem hmem]
    exact nodup_names_setCol _ _ h
  · rw [harmoniseStep4_of_not_mem hmem]
    exact nodup_names_setCol _ _ (nodup_names_setCol _ _ h)

theorem WF_step4 {df : DataFrame} (h : df.WF) : (harmoniseStep4 df).WF := by
  by_cases hmem : "Related_Project_ID" ∈ df.names
  · rw [harmoniseStep4_of_mem hmem]
    apply WF_setCol h
    rw [List.length_map, List.length_range]
  · rw [harmoniseStep4_of_not_mem hmem]
    apply WF_setCol
    · exact WF_setCol h (by rw [List.length_replicate])
    · rw [List.length_map, List.length_range, nrows_setCol]

theorem namesStripped_step4 {df : DataFrame} (h : NamesStripped df) :
    NamesStripped (harmoniseStep4 df) := by
  by_cases hmem : "Related_Project_ID" ∈ df.names
  · rw [harmoniseStep4_of_mem hmem]
    exact namesStripped_setCol h (by decide)
  · rw [harmoniseStep4_of_not_mem hmem]
    exact namesStripped_setCol (namesStripped_setCol h (by decide)) (by decide)

/-!
Lemmas: Strip pass and whole-pipeline basics
-/

theorem nrows_stripNames (df : DataFrame) : (stripNames df).nrows = df.nrows := rfl

theorem names_stripNames (df : DataFrame) :
    (stripNames df).names = df.names.map pyStrip := by
  unfold stripNames DataFrame.names
  rw [List.map_map, List.map_map]
  rfl

theorem WF_stripNames {df : DataFrame} (h : df.WF) : (stripNames df).WF := by
  intro c hc
  obtain ⟨d, hd, hdc⟩ := List.mem_map.mp hc
  rw [← hdc]
  exact h d hd

theorem stripNames_id_of {df : DataFrame} (h : NamesStripped df) : stripNames df = df := by
  unfold stripNames
  have hmap : df.cols.map (fun c => (pyStrip c.1, c.2)) = df.cols := by
    have hcc : ∀ c ∈ df.cols, (pyStrip c.1, c.2) = c := by
      intro c hc
      have hc1 : pyStrip c.1 = c.1 := h c.1 (List.mem_map.mpr ⟨c, hc, rfl⟩)
      rw [hc1]
    rw [List.map_congr_left hcc]
    exact List.map_id' df.cols
  rw [hmap]

theorem nrows_step2 (df : DataFrame) : (harmoniseStep2 df).nrows = df.nrows :=
  nrows_ensureCols money_cols df

theorem nrows_step1 (df : DataFrame) : (harmoniseStep1 df).nrows = df.nrows :=
  nrows_mapFold HEADER_MAP df

theorem nrows_harmonise (df : DataFrame) : (harmonise_columns df).nrows = df.nrows := by
  unfold harmonise_columns
  rw [nrows_dedupCols, nrows_dropAllNA, nrows_step4, nrows_step3, nrows_step2,
    nrows_step1, nrows_stripNames]

theorem nodup_names_harmonise (df : DataFrame) : (harmonise_columns df).names.Nodup :=
  nodup_names_dedupCols _

theorem harmonise_cols_any (df : DataFrame) :
    ∀ c ∈ (harmonise_columns df).cols, c.2.any (fun x => ¬ x = Cell.na) = true := by
  intro c hc
  exact cols_dropAllNA_any _ c (cols_dedupCols_mem hc)

theorem money_cols_nodup : money_cols.Nodup := by decide

theorem money_cols_stripped : ∀ m ∈ money_cols, pyStrip m = m := by decide

theorem namesStripped_dropAllNA {df : DataFrame} (h : NamesStripped df) :
    NamesStripped (dropAllNA df) := by
  intro n hn
  exact h n (List.Sublist.mem hn (names_dropAllNA_sublist df))

theorem namesStripped_dedupCols {df : DataFrame} (h : NamesStripped df) :
    NamesStripped (dedupCols df) := by
  intro n hn
  exact h n ((df.mem_names_dedupCols_iff n).mp hn)

theorem namesStripped_harmonise (df : DataFrame) :
    NamesStripped (harmonise_columns df) := by
  unfold harmonise_columns
  apply namesStripped_dedupCols
  apply namesStripped_dropAllNA
  apply namesStripped_step4
  apply namesStripped_step3
  apply namesStripped_ensureCols money_cols money_cols_stripped
  apply namesStripped_mapFold HEADER_MAP (namesStripped_stripNames df) headerMap_canons_stripped

theorem not_mem_harmonise_of {df : DataFrame} {v : String}
    (h1 : v ∉ (harmoniseStep1 (stripNames df)).names) (h2 : v ∉ derivedNames) :
    v ∉ (harmonise_columns df).names := by
  intro hmem
  unfold harmonise_columns at hmem
  rw [mem_names_dedupCols_iff] at hmem
  have hmem4 := List.Sublist.mem hmem (names_dropAllNA_sublist _)
  rcases mem_names_step4_sub hmem4 with h3 | h3 | h3
  · rcases mem_names_step3_sub h3 with h4 | h4 | h4 | h4 | h4
    · rcases mem_names_ensureCols_sub money_cols_nodup h4 with h5 | h5
      · exact h1 h5
      · exact h2 (List.mem_append_left _ h5)
    all_goals exact h2 (by rw [h4]; decide)
  all_goals exact h2 (by rw [h3]; decide)

theorem harmonise_variant_absent (df : DataFrame) :
    ∀ p ∈ HEADER_MAP, ∀ v ∈ p.2, ¬ v = "Municipality" → ¬ v = "County" →
    v ∉ (harmonise_columns df).names := by
  intro p hp v hv hvm hvc
  by_cases hvp : v = p.1
  · rcases headerMap_self_cases p hp v hv hvp with h | h | h
    · apply not_mem_harmonise_of
      · rw [hvp, h]
        exact mapFold_selfvariant_gone HEADER_MAP headerMap_industry_mem headerMap_canons_nodup
      · rw [hvp, h]
        decide
    · exact absurd (hvp.trans h) hvm
    · exact absurd (hvp.trans h) hvc
  · apply not_mem_harmonise_of
    · obtain ⟨c, vs⟩ := p
      exact mapFold_variant_gone HEADER_MAP hp hv hvp headerMap_canon_in_variants
    · exact headerMap_variants_not_derived p hp v hv

/-!
Lemmas: Locating the derived columns in the final frame
-/

theorem money_not_derived_eq : ∀ m ∈ money_cols, ¬ m = "Exemption_Total"
    ∧ ¬ m = "PILOT_Total" ∧ ¬ m = "State_Award_Total" ∧ ¬ m = "Total_Incentive"
    ∧ ¬ m = "Related_Project_ID" ∧ ¬ m = "Is_MultiPhase" := by decide

theorem range_map_getD (f : Nat → Cell) (n i : Nat) (h : i < n) :
    ((List.range n).map f).getD i Cell.na = f i := by
  have hlen : i < ((List.range n).map f).length := by
    rw [List.length_map, List.length_range]
    exact h
  rw [List.getD_eq_getElem _ _ hlen, List.getElem_map, List.getElem_range]

theorem range_map_num_any {g : Nat → Rat} {n : Nat} (h : 1 ≤ n) :
    ((List.range n).map (fun i => Cell.num (g i))).any (fun x => ¬ x = Cell.na) = true := by
  rw [List.any_eq_true]
  refine ⟨Cell.num (g 0), List.mem_map.mpr ⟨0, by simpa using h, rfl⟩, by simp⟩

theorem range_map_bool_any {g : Nat → Bool} {n : Nat} (h : 1 ≤ n) :
    ((List.range n).map (fun i => Cell.bool (g i))).any (fun x => ¬ x = Cell.na) = true := by
  rw [List.any_eq_true]
  refine ⟨Cell.bool (g 0), List.mem_map.mpr ⟨0, by simpa using h, rfl⟩, by simp⟩

namespace DataFrame

theorem setCol_mem_pair (df : DataFrame) (n : String) (cells : List Cell) :
    (n, cells) ∈ (df.setCol n cells).cols := by
  unfold setCol
  by_cases hn : n ∈ df.names
  · rw [if_pos hn]
    obtain ⟨cs, hmem⟩ := (df.mem_names_iff n).mp hn
    refine List.mem_map.mpr ⟨(n, cs), hmem, ?_⟩
    rw [if_pos rfl]
  · rw [if_neg hn]
    exact List.mem_append_right _ (List.mem_singleton.mpr rfl)

theorem setCol_mem_pair_keep {df : DataFrame} {m : String} {cs : List Cell}
    (h : (m, cs) ∈ df.cols) {n : String} (hmn : ¬ m = n) (cells : List Cell) :
    (m, cs) ∈ (df.setCol n cells).cols := by
  unfold setCol
  by_cases hn : n ∈ df.names
  · rw [if_pos hn]
    refine List.mem_map.mpr ⟨(m, cs), h, ?_⟩
    rw [if_neg (by simpa using hmn)]
  · rw [if_neg hn]
    exact List.mem_append_left _ h

theorem getColD_ne_nil_mem {df : DataFrame} {n : String} (h : ¬ df.getColD n = []) :
    n ∈ df.names := by
  by_contra hn
  exact h (getColD_eq_nil_of_not_mem hn)

end DataFrame

theorem coerce_harmonise_money (df : DataFrame) (hnd : (stripNames df).names.Nodup)
    {m : String} (hm : m ∈ money_cols) (i : Nat) :
    coerce0 ((harmonise_columns df).getCell m i)
      = coerce0 ((harmoniseStep2 (harmoniseStep1 (stripNames df))).getCell m i) := by
  obtain ⟨f1, f2, f3, f4, f5, f6⟩ := money_not_derived_eq m hm
  have hnd1 : (harmoniseStep1 (stripNames df)).names.Nodup := nodup_names_mapFold _ hnd
  have hnd2 : (harmoniseStep2 (harmoniseStep1 (stripNames df))).names.Nodup :=
    nodup_names_ensureCols _ _ money_cols_nodup hnd1
  have hnd4 := nodup_names_step4 (nodup_names_step3 hnd2)
  have hc43 : (harmoniseStep4 (harmoniseStep3 (harmoniseStep2 (harmoniseStep1
      (stripNames df))))).getColD m
      = (harmoniseStep2 (harmoniseStep1 (stripNames df))).getColD m := by
    rw [getColD_step4_other f5 f6, getColD_step3_other f1 f2 f3 f4]
  unfold harmonise_columns DataFrame.getCell
  rw [getColD_dedupCols _ (nodup_names_dropAllNA _ hnd4), getColD_dropAllNA hnd4 m, hc43]
  by_cases hany : ((harmoniseStep2 (harmoniseStep1 (stripNames df))).getColD m).any
      (fun x => ¬ x = Cell.na) = true
  · rw [if_pos hany]
  · have h2 : ((harmoniseStep2 (harmoniseStep1 (stripNames df))).getColD m).getD i Cell.na
        = Cell.na := getD_na_of_not_any (by simpa using hany) i
    rw [if_neg hany, h2]
    rfl

theorem exemptionRow_harmonise (df : DataFrame) (hnd : (stripNames df).names.Nodup) (i : Nat) :
    exemptionRow (harmonise_columns df) i
      = exemptionRow (harmoniseStep2 (harmoniseStep1 (stripNames df))) i := by
  unfold exemptionRow
  rw [coerce_harmonise_money df hnd (by decide) i, coerce_harmonise_money df hnd (by decide) i,
    coerce_harmonise_money df hnd (by decide) i]

theorem pilotRow_harmonise (df : DataFrame) (hnd : (stripNames df).names.Nodup) (i : Nat) :
    pilotRow (harmonise_columns df) i
      = pilotRow (harmoniseStep2 (harmoniseStep1 (stripNames df))) i := by
  unfold pilotRow
  rw [coerce_harmonise_money df hnd (by decide) i, coerce_harmonise_money df hnd (by decide) i,
    coerce_harmonise_money df hnd (by decide) i]

theorem stateAwardRow_harmonise (df : DataFrame) (hnd : (stripNames df).names.Nodup) (i : Nat) :
    stateAwardRow (harmonise_columns df) i
      = stateAwardRow (harmoniseStep2 (harmoniseStep1 (stripNames df))) i := by
  unfold stateAwardRow
  rw [coerce_harmonise_money df hnd (by decide) i]

theorem getColD_harmonise_ET (df : DataFrame) (hnd : (stripNames df).names.Nodup)
    (hpos : 1 ≤ df.nrows) :
    (harmonise_columns df).getColD "Exemption_Total"
      = (List.range df.nrows).map
          (fun i => Cell.num (exemptionRow (harmoniseStep2 (harmoniseStep1 (stripNames df))) i)) := by
  have hnd2 : (harmoniseStep2 (harmoniseStep1 (stripNames df))).names.Nodup :=
    nodup_names_ensureCols _ _ money_cols_nodup (nodup_names_mapFold _ hnd)
  have hnd4 := nodup_names_step4 (nodup_names_step3 hnd2)
  have hnr : (harmoniseStep2 (harmoniseStep1 (stripNames df))).nrows = df.nrows := by
    rw [nrows_step2, nrows_step1, nrows_stripNames]
  have hc4 : (harmoniseStep4 (harmoniseStep3 (harmoniseStep2 (harmoniseStep1
      (stripNames df))))).getColD "Exemption_Total"
      = (List.range df.nrows).map
          (fun i => Cell.num (exemptionRow (harmoniseStep2 (harmoniseStep1 (stripNames df))) i)) := by
    rw [getColD_step4_other (by decide) (by decide), getColD_step3_ET, hnr]
  unfold harmonise_columns
  rw [getColD_dedupCols _ (nodup_names_dropAllNA _ hnd4), getColD_dropAllNA hnd4, hc4,
    if_pos (range_map_num_any hpos)]

theorem getColD_harmonise_PT (df : DataFrame) (hnd : (stripNames df).names.Nodup)
    (hpos : 1 ≤ df.nrows) :
    (harmonise_columns df).getColD "PILOT_Total"
      = (List.range df.nrows).map
          (fun i => Cell.num (pilotRow (harmoniseStep2 (harmoniseStep1 (stripNames df))) i)) := by
  have hnd2 : (harmoniseStep2 (harmoniseStep1 (stripNames df))).names.Nodup :=
    nodup_names_ensureCols _ _ money_cols_nodup (nodup_names_mapFold _ hnd)
  have hnd4 := nodup_names_step4 (nodup_names_step3 hnd2)
  have hnr : (harmoniseStep2 (harmoniseStep1 (stripNames df))).nrows = df.nrows := by
    rw [nrows_step2, nrows_step1, nrows_stripNames]
  have hc4 : (harmoniseStep4 (harmoniseStep3 (harmoniseStep2 (harmoniseStep1
      (stripNames df))))).getColD "PILOT_Total"
      = (List.range df.nrows).map
          (fun i => Cell.num (pilotRow (harmoniseStep2 (harmoniseStep1 (stripNames df))) i)) := by
    rw [getColD_step4_other (by decide) (by decide), getColD_step3_PT, hnr]
  unfold harmonise_columns
  rw [getColD_dedupCols _ (nodup_names_dropAllNA _ hnd4), getColD_dropAllNA hnd4, hc4,
    if_pos (range_map_num_any hpos)]

theorem getColD_harmonise_SAT (df : DataFrame) (hnd : (stripNames df).names.Nodup)
    (hpos : 1 ≤ df.nrows) :
    (harmonise_columns df).getColD "State_Award_Total"
      = (List.range df.nrows).map
          (fun i => Cell.num (stateAwardRow (harmoniseStep2 (harmoniseStep1 (stripNames df))) i)) := by
  have hnd2 : (harmoniseStep2 (harmoniseStep1 (stripNames df))).names.Nodup :=
    nodup_names_ensureCols _ _ money_cols_nodup (nodup_names_mapFold _ hnd)
  have hnd4 := nodup_names_step4 (nodup_names_step3 hnd2)
  have hnr : (harmoniseStep2 (harmoniseStep1 (stripNames df))).nrows = df.nrows := by
    rw [nrows_step2, nrows_step1, nrows_stripNames]
  have hc4 : (harmoniseStep4 (harmoniseStep3 (harmoniseStep2 (harmoniseStep1
      (stripNames df))))).getColD "State_Award_Total"
      = (List.range df.nrows).map
          (fun i => Cell.num (stateAwardRow (harmoniseStep2 (harmoniseStep1 (stripNames df))) i)) := by
    rw [getColD_step4_other (by decide) (by decide), getColD_step3_SAT, hnr]
  unfold harmonise_columns
  rw [getColD_dedupCols _ (nodup_names_dropAllNA _ hnd4), getColD_dropAllNA hnd4, hc4,
    if_pos (range_map_num_any hpos)]

theorem getColD_harmonise_TI (df : DataFrame) (hnd : (stripNames df).names.Nodup)
    (hpos : 1 ≤ df.nrows) :
    (harmonise_columns df).getColD "Total_Incentive"
      = (List.range df.nrows).map
          (fun i => Cell.num
            (exemptionRow (harmoniseStep2 (harmoniseStep1 (stripNames df))) i
              + stateAwardRow (harmoniseStep2 (harmoniseStep1 (stripNames df))) i
              - pilotRow (harmoniseStep2 (harmoniseStep1 (stripNames df))) i)) := by
  have hnd2 : (harmoniseStep2 (harmoniseStep1 (stripNames df))).names.Nodup :=
    nodup_names_ensureCols _ _ money_cols_nodup (nodup_names_mapFold _ hnd)
  have hnd4 := nodup_names_step4 (nodup_names_step3 hnd2)
  have hnr : (harmoniseStep2 (harmoniseStep1 (stripNames df))).nrows = df.nrows := by
    rw [nrows_step2, nrows_step1, nrows_stripNames]
  have hc4 : (harmoniseStep4 (harmoniseStep3 (harmoniseStep2 (harmoniseStep1
      (stripNames df))))).getColD "Total_Incentive"
      = (List.range df.nrows).map
          (fun i => Cell.num
            (exemptionRow (harmoniseStep2 (harmoniseStep1 (stripNames df))) i
              + stateAwardRow (harmoniseStep2 (harmoniseStep1 (stripNames df))) i
              - pilotRow (harmoniseStep2 (harmoniseStep1 (stripNames df))) i)) := by
    rw [getColD_step4_other (by decide) (by decide), getColD_step3_TI, hnr]
  unfold harmonise_columns
  rw [getColD_dedupCols _ (nodup_names_dropAllNA _ hnd4), getColD_dropAllNA hnd4, hc4,
    if_pos (range_map_num_any hpos)]

theorem coerce0_num (q : Rat) : coerce0 (Cell.num q) = q := rfl

/-- C5: The KPIs are sum-style: in every row of the harmonised output,
`Exemption_Total` is the sum of the numeric coercions of the three exemption
columns (a missing or non-numeric cell contributing 0), `PILOT_Total` likewise
over the three PILOT columns, `State_Award_Total` is the numeric coercion of
`State_Award`, and `Total_Incentive` equals `Exemption_Total` plus
`State_Award_Total` minus `PILOT_Total`. -/
theorem C5_kpis_sum_style (df : DataFrame) (hnd : (stripNames df).names.Nodup)
    (i : Nat) (hi : i < df.nrows) :
    (harmonise_columns df).getCell "Exemption_Total" i
        = Cell.num (coerce0 ((harmonise_columns df).getCell "Exemption_School" i)
            + coerce0 ((harmonise_columns df).getCell "Exemption_County" i)
            + coerce0 ((harmonise_columns df).getCell "Exemption_City" i))
    ∧ (harmonise_columns df).getCell "PILOT_Total" i
        = Cell.num (coerce0 ((harmonise_columns df).getCell "PILOT_School" i)
            + coerce0 ((harmonise_columns df).getCell "PILOT_County" i)
            + coerce0 ((harmonise_columns df).getCell "PILOT_City" i))
    ∧ (harmonise_columns df).getCell "State_Award_Total" i
        = Cell.num (coerce0 ((harmonise_columns df).getCell "State_Award" i))
    ∧ (harmonise_columns df).getCell "Total_Incentive" i
        = Cell.num (coerce0 ((harmonise_columns df).getCell "Exemption_Total" i)
            + coerce0 ((harmonise_columns df).getCell "State_Award_Total" i)
            - coerce0 ((harmonise_columns df).getCell "PILOT_Total" i)) := by
  have hpos : 1 ≤ df.nrows := Nat.lt_of_le_of_lt (Nat.zero_le i) hi
  have hET : (harmonise_columns df).getCell "Exemption_Total" i
      = Cell.num (exemptionRow (harmoniseStep2 (harmoniseStep1 (stripNames df))) i) := by
    unfold DataFrame.getCell
    rw [getColD_harmonise_ET df hnd hpos, range_map_getD _ _ _ hi]
  have hPT : (harmonise_columns df).getCell "PILOT_Total" i
      = Cell.num (pilotRow (harmoniseStep2 (harmoniseStep1 (stripNames df))) i) := by
    unfold DataFrame.getCell
    rw [getColD_harmonise_PT df hnd hpos, range_map_getD _ _ _ hi]
  have hSAT : (harmonise_columns df).getCell "State_Award_Total" i
      = Cell.num (stateAwardRow (harmoniseStep2 (harmoniseStep1 (stripNames df))) i) := by
    unfold DataFrame.getCell
    rw [getColD_harmonise_SAT df hnd hpos, range_map_getD _ _ _ hi]
  have hTI : (harmonise_columns df).getCell "Total_Incentive" i
      = Cell.num (exemptionRow (harmoniseStep2 (harmoniseStep1 (stripNames df))) i
          + stateAwardRow (harmoniseStep2 (harmoniseStep1 (stripNames df))) i
          - pilotRow (harmoniseStep2 (harmoniseStep1 (stripNames df))) i) := by
    unfold DataFrame.getCell
    rw [getColD_harmonise_TI df hnd hpos, range_map_getD _ _ _ hi]
  refine ⟨?_, ?_, ?_, ?_⟩
  · show _ = Cell.num (exemptionRow (harmonise_columns df) i)
    rw [hET, exemptionRow_harmonise df hnd i]
  · show _ = Cell.num (pilotRow (harmonise_columns df) i)
    rw [hPT, pilotRow_harmonise df hnd i]
  · show _ = Cell.num (stateAwardRow (harmonise_columns df) i)
    rw [hSAT, stateAwardRow_harmonise df hnd i]
  · rw [hTI, hET, hSAT, hPT, coerce0_num, coerce0_num, coerce0_num]

/-- Witness for C5 at a concrete one-row frame. -/
theorem C5_kpis_sum_style_witness :
    (harmonise_columns dfC5w).getCell "Exemption_Total" 0
        = Cell.num (coerce0 ((harmonise_columns dfC5w).getCell "Exemption_School" 0)
            + coerce0 ((harmonise_columns dfC5w).getCell "Exemption_County" 0)
            + coerce0 ((harmonise_columns dfC5w).getCell "Exemption_City" 0))
    ∧ (harmonise_columns dfC5w).getCell "PILOT_Total" 0
        = Cell.num (coerce0 ((harmonise_columns dfC5w).getCell "PILOT_School" 0)
            + coerce0 ((harmonise_columns dfC5w).getCell "PILOT_County" 0)
            + coerce0 ((harmonise_columns dfC5w).getCell "PILOT_City" 0))
    ∧ (harmonise_columns dfC5w).getCell "State_Award_Total" 0
        = Cell.num (coerce0 ((harmonise_columns dfC5w).getCell "State_Award" 0))
    ∧ (harmonise_columns dfC5w).getCell "Total_Incentive" 0
        = Cell.num (coerce0 ((harmonise_columns dfC5w).getCell "Exemption_Total" 0)
            + coerce0 ((harmonise_columns dfC5w).getCell "State_Award_Total" 0)
            - coerce0 ((harmonise_columns dfC5w).getCell "PILOT_Total" 0)) :=
  C5_kpis_sum_style dfC5w (by decide) 0 (by decide)

set_option maxRecDepth 4000 in
/-- C1: The header-harmonization pass loses non-null values.  Because
`Industry` is listed as a variant of itself, the co-fill branch fills the
column with itself and then drops it, so a frame whose `Industry` column
holds the non-null value `"Tech"` comes out with no `Industry` column at
all.  This contradicts the documented intent of the pass (`Rename or
co-fill variant headers into canonical names`), so the code, not the
claim, is at fault. -/
theorem C1_industry_value_lost :
    dfC1x.getCell "Industry" 0 = Cell.str "Tech"
    ∧ "Industry" ∉ (harmonise_columns dfC1x).names
    ∧ (harmonise_columns dfC1x).names = ["Exemption_Total", "PILOT_Total",
        "State_Award_Total", "Total_Incentive", "Is_MultiPhase"] := by decide

/-- C7: The rename/merge pass and the search are deterministic: equal
input frames give equal outputs of `harmonise_columns`, and equal inputs,
terms and mode give equal results of `search_records`. -/
theorem C7_deterministic (m : String → String → Bool) (df1 df2 : DataFrame)
    (terms : List String) (regex : Bool) (h : df1 = df2) :
    harmonise_columns df1 = harmonise_columns df2
    ∧ searchRecordsE m df1 terms regex = searchRecordsE m df2 terms regex := by
  subst h
  exact ⟨rfl, rfl⟩

/-- Witness for C7 at a concrete frame. -/
theorem C7_deterministic_witness :
    harmonise_columns dfC7w = harmonise_columns dfC7w
    ∧ searchRecordsE (fun _ _ => false) dfC7w ["IBM"] false
        = searchRecordsE (fun _ _ => false) dfC7w ["IBM"] false :=
  C7_deterministic (fun _ _ => false) dfC7w dfC7w ["IBM"] false rfl

/-- C10: `harmonise_columns` mutates its argument in place.  Lines 81-130
of `app.py` operate on the caller's object (`df.columns = ...`,
`inplace=True` renames, drops and column assignments), while line 131 only
rebinds the local name; so after the call the caller's frame equals
`harmoniseInPlaceState df`, which differs from the original frame here
because the derived `Is_MultiPhase` column has been added to it, and the
returned frame is the deduplication of that mutated state. -/
theorem C10_mutates_in_place (df : DataFrame) (hpos : 1 ≤ df.nrows)
    (h : "Is_MultiPhase" ∉ (stripNames df).names) :
    harmoniseInPlaceState df ≠ df
    ∧ harmonise_columns df = dedupCols (harmoniseInPlaceState df) := by
  constructor
  · have hin : "Is_MultiPhase" ∈ (harmoniseInPlaceState df).names := by
      unfold harmoniseInPlaceState
      set d3 := harmoniseStep3 (harmoniseStep2 (harmoniseStep1 (stripNames df))) with hd3
      have hnr3 : d3.nrows = df.nrows := by
        rw [hd3, nrows_step3, nrows_step2, nrows_step1, nrows_stripNames]
      by_cases hmem : "Related_Project_ID" ∈ d3.names
      · rw [harmoniseStep4_of_mem hmem]
        apply mem_names_dropAllNA_of (DataFrame.setCol_mem_pair _ _ _)
        rw [hnr3]
        exact range_map_bool_any hpos
      · rw [harmoniseStep4_of_not_mem hmem]
        apply mem_names_dropAllNA_of (DataFrame.setCol_mem_pair _ _ _)
        rw [hnr3]
        exact range_map_bool_any hpos
    have hout : "Is_MultiPhase" ∉ df.names := by
      intro hmem
      apply h
      rw [names_stripNames]
      have : pyStrip "Is_MultiPhase" = "Is_MultiPhase" := by decide
      rw [← this]
      exact List.mem_map.mpr ⟨"Is_MultiPhase", hmem, rfl⟩
    intro heq
    rw [heq] at hin
    exact hout hin
  · rfl

/-- Witness for C10 at a concrete frame. -/
theorem C10_mutates_in_place_witness :
    harmoniseInPlaceState dfC10w ≠ dfC10w
    ∧ harmonise_columns dfC10w = dedupCols (harmoniseInPlaceState dfC10w) :=
  C10_mutates_in_place dfC10w (by decide) (by decide)

/-!
Lemmas: Search lemmas
-/

theorem iloc00_eq_names (df : DataFrame) :
    iloc00 df = ⟨0, df.names.map (fun n => (n, ([] : List Cell)))⟩ := by
  unfold iloc00 DataFrame.names
  rw [List.map_map]
  rfl

theorem names_iloc00 (df : DataFrame) : (iloc00 df).names = df.names := by
  rw [iloc00_eq_names]
  show (df.names.map _).map _ = _
  rw [List.map_map]
  rw [List.map_congr_left (fun x _ => rfl)]
  exact List.map_id _

theorem rowsOf_iloc00 (df : DataFrame) : rowsOf (iloc00 df) = [] := by
  unfold rowsOf
  rw [iloc00_eq_names]
  rfl

theorem names_filterRows (df : DataFrame) (mask : Nat → Bool) :
    (filterRows df mask).names = df.names := by
  unfold filterRows DataFrame.names
  rw [List.map_map]
  exact List.map_congr_left (fun c _ => rfl)

theorem map_getD_lt {α : Type} (l : List α) (f : α → Cell) (j : Nat) (h : j < l.length) :
    (l.map f).getD j Cell.na = f (l.get ⟨j, h⟩) := by
  have hlen : j < (l.map f).length := by rw [List.length_map]; exact h
  rw [List.getD_eq_getElem _ _ hlen, List.getElem_map]
  rfl

theorem rowsOf_filterRows (df : DataFrame) (mask : Nat → Bool) :
    rowsOf (filterRows df mask)
      = ((List.range df.nrows).filter mask).map (rowAt df) := by
  unfold rowsOf
  apply List.ext_getElem
  · rw [List.length_map, List.length_range, List.length_map]
    rfl
  · intro j h1 h2
    rw [List.getElem_map, List.getElem_map, List.getElem_range]
    have hj : j < ((List.range df.nrows).filter mask).length := by
      rw [List.length_map] at h2
      exact h2
    unfold rowAt filterRows
    rw [List.map_map]
    apply List.map_congr_left
    intro c _
    show (c.1, (((List.range df.nrows).filter mask).map (fun i => c.2.getD i Cell.na)).getD j Cell.na)
      = (c.1, c.2.getD (((List.range df.nrows).filter mask).get ⟨j, hj⟩) Cell.na)
    rw [map_getD_lt _ _ j hj]

theorem rowsOf_filterRows_sublist (df : DataFrame) (mask : Nat → Bool) :
    List.Sublist (rowsOf (filterRows df mask)) (rowsOf df) := by
  rw [rowsOf_filterRows]
  unfold rowsOf
  exact (List.filter_sublist _).map (rowAt df)

/-- C8: With an empty term list, `search_records` short-circuits to
`df.iloc[0:0]`: the result is `ok`, has zero rows and the same column
labels, and is computed without inspecting any cell: any frame with the
same labels, and any match oracle, give the identical result. -/
theorem C8_empty_terms (m : String → String → Bool) (df : DataFrame) (regex : Bool) :
    searchRecordsE m df [] regex = Except.ok (iloc00 df)
    ∧ (iloc00 df).nrows = 0
    ∧ (iloc00 df).names = df.names
    ∧ ∀ (m2 : String → String → Bool) (df2 : DataFrame), df2.names = df.names →
        searchRecordsE m2 df2 [] regex = searchRecordsE m df [] regex := by
  refine ⟨rfl, rfl, names_iloc00 df, ?_⟩
  intro m2 df2 hnames
  show Except.ok (iloc00 df2) = Except.ok (iloc00 df)
  rw [iloc00_eq_names, iloc00_eq_names, hnames]

/-- Witness for C8 at a concrete frame. -/
theorem C8_empty_terms_witness :
    searchRecordsE (fun _ _ => false) ⟨1, [("Recipient", [Cell.str "IBM"])]⟩ [] false
      = Except.ok (iloc00 ⟨1, [("Recipient", [Cell.str "IBM"])]⟩) :=
  (C8_empty_terms (fun _ _ => false) ⟨1, [("Recipient", [Cell.str "IBM"])]⟩ false).1

/-- C3: Filtering is a subset of the input: whenever `search_records`
returns, the result has the same column labels and its rows are a
subsequence (same rows, same relative order) of the input's rows. -/
theorem C3_filter_subset (m : String → String → Bool) (df : DataFrame)
    (terms : List String) (regex : Bool) (res : DataFrame)
    (h : searchRecordsE m df terms regex = Except.ok res) :
    res.names = df.names ∧ List.Sublist (rowsOf res) (rowsOf df) := by
  unfold searchRecordsE at h
  by_cases ht : terms = []
  · rw [if_pos ht] at h
    cases h
    exact ⟨names_iloc00 df, by rw [rowsOf_iloc00]; exact List.nil_sublist _⟩
  · rw [if_neg ht] at h
    split at h
    · exact absurd h (by simp)
    · cases h
      unfold search_records
      rw [if_neg ht]
      exact ⟨names_filterRows _ _, rowsOf_filterRows_sublist _ _⟩

/-- Witness for C3 at a concrete search. -/
theorem C3_filter_subset_witness :
    (search_records (fun _ _ => false) dfC3w ["ibm"] false).names = dfC3w.names
    ∧ List.Sublist (rowsOf (search_records (fun _ _ => false) dfC3w ["ibm"] false))
        (rowsOf dfC3w) :=
  C3_filter_subset (fun _ _ => false) dfC3w ["ibm"] false _ rfl

/-- C4 counterexample: `search_records` does raise.  In regex mode the
term `"("` joins into an invalid pattern, `str.contains` compiles it while
scanning the object column, and the compilation error propagates to the
caller, contradicting the claim that no error beyond "file not found" and
"column missing" reaches the user. -/
theorem C4_counterexample :
    searchRecordsE (fun _ _ => true) dfC4x ["("] true
      = Except.error "re.error: invalid pattern" := rfl

/-- C4 (amended): `search_records` raises exactly in regex mode with a
non-empty term list whose joined pattern is an invalid regular expression
while at least one object column is scanned; it never raises in substring
mode or with an empty term list.  The map page's missing or malformed
Mapbox token is a third error kind, stopped with a user-facing error
message rather than a warning. -/
theorem C4_error_characterisation (m : String → String → Bool) (df : DataFrame)
    (terms : List String) (regex : Bool) :
    (searchRecordsE m df terms regex = Except.error "re.error: invalid pattern"
      ↔ regex = true ∧ ¬ terms = [] ∧ reValid (String.intercalate "|" terms) = false
          ∧ ¬ objCols df = [])
    ∧ (regex = false →
        searchRecordsE m df terms regex = Except.ok (search_records m df terms regex))
    ∧ mapTokenOk none = false
    ∧ mapTokenOk (some "pk.abc123") = true
    ∧ mapTokenOk (some "sk.abc123") = false := by
  refine ⟨?_, ?_, rfl, by decide, by decide⟩
  · unfold searchRecordsE
    by_cases ht : terms = []
    · rw [if_pos ht]
      constructor
      · intro h
        exact absurd h (by simp)
      · rintro ⟨_, hne, _⟩
        exact absurd ht hne
    · rw [if_neg ht]
      by_cases hcond : regex = true ∧ ¬ reValid (String.intercalate "|" terms) = true
          ∧ ¬ objCols df = []
      · rw [if_pos hcond]
        constructor
        · intro _
          exact ⟨hcond.1, ht, by simpa using hcond.2.1, hcond.2.2⟩
        · intro _
          rfl
      · rw [if_neg hcond]
        constructor
        · intro h
          exact absurd h (by simp)
        · rintro ⟨h1, _, h2, h3⟩
          exact absurd ⟨h1, by simp [h2], h3⟩ hcond
  · intro hre
    unfold searchRecordsE
    by_cases ht : terms = []
    · rw [if_pos ht]
      unfold search_records
      rw [if_pos ht]
    · rw [if_neg ht, if_neg (by rw [hre]; simp)]

/-!
Lemmas: The derived columns as concrete members of the final frame
-/

theorem pair_keep_step4 {df : DataFrame} {m : String} {cs : List Cell}
    (h : (m, cs) ∈ df.cols) (h1 : ¬ m = "Related_Project_ID")
    (h2 : ¬ m = "Is_MultiPhase") : (m, cs) ∈ (harmoniseStep4 df).cols := by
  by_cases hmem : "Related_Project_ID" ∈ df.names
  · rw [harmoniseStep4_of_mem hmem]
    exact DataFrame.setCol_mem_pair_keep h h2 _
  · rw [harmoniseStep4_of_not_mem hmem]
    exact DataFrame.setCol_mem_pair_keep (DataFrame.setCol_mem_pair_keep h h1 _) h2 _

theorem derived_pairs_mem_step3 (d2 : DataFrame) :
    ("Exemption_Total",
        (List.range d2.nrows).map (fun i => Cell.num (exemptionRow d2 i)))
      ∈ (harmoniseStep3 d2).cols
    ∧ ("PILOT_Total", (List.range d2.nrows).map (fun i => Cell.num (pilotRow d2 i)))
      ∈ (harmoniseStep3 d2).cols
    ∧ ("State_Award_Total",
        (List.range d2.nrows).map (fun i => Cell.num (stateAwardRow d2 i)))
      ∈ (harmoniseStep3 d2).cols
    ∧ ("Total_Incentive",
        (List.range d2.nrows).map
          (fun i => Cell.num (exemptionRow d2 i + stateAwardRow d2 i - pilotRow d2 i)))
      ∈ (harmoniseStep3 d2).cols := by
  rw [harmoniseStep3_eq]
  refine ⟨?_, ?_, ?_, ?_⟩
  · exact DataFrame.setCol_mem_pair_keep (DataFrame.setCol_mem_pair_keep
      (DataFrame.setCol_mem_pair_keep (DataFrame.setCol_mem_pair _ _ _) (by decide) _)
      (by decide) _) (by decide) _
  · exact DataFrame.setCol_mem_pair_keep (DataFrame.setCol_mem_pair_keep
      (DataFrame.setCol_mem_pair _ _ _) (by decide) _) (by decide) _
  · exact DataFrame.setCol_mem_pair_keep (DataFrame.setCol_mem_pair _ _ _) (by decide) _
  · exact DataFrame.setCol_mem_pair _ _ _

set_option maxRecDepth 4000 in
/-- C9 counterexample: on a frame with no rows every column is entirely
null, so `dropna(axis=1, how="all")` removes every column, including the
derived totals the dashboard metrics rely on. -/
theorem C9_counterexample :
    "Exemption_Total" ∉ (harmonise_columns dfC9x).names
    ∧ (harmonise_columns dfC9x).cols = [] := by decide

/-- C9 (amended): For every input frame with at least one row, the
harmonised output contains the `Exemption_Total`, `PILOT_Total`,
`State_Award_Total`, `Total_Incentive` and `Is_MultiPhase` columns, has no
duplicated column label, and has no entirely-null column. -/
theorem C9_invariants (df : DataFrame) (hpos : 1 ≤ df.nrows) :
    "Exemption_Total" ∈ (harmonise_columns df).names
    ∧ "PILOT_Total" ∈ (harmonise_columns df).names
    ∧ "State_Award_Total" ∈ (harmonise_columns df).names
    ∧ "Total_Incentive" ∈ (harmonise_columns df).names
    ∧ "Is_MultiPhase" ∈ (harmonise_columns df).names
    ∧ (harmonise_columns df).names.Nodup
    ∧ ∀ c ∈ (harmonise_columns df).cols, c.2.any (fun x => ¬ x = Cell.na) = true := by
  have hnr2 : (harmoniseStep2 (harmoniseStep1 (stripNames df))).nrows = df.nrows := by
    rw [nrows_step2, nrows_step1, nrows_stripNames]
  obtain ⟨hET, hPT, hSAT, hTI⟩ :=
    derived_pairs_mem_step3 (harmoniseStep2 (harmoniseStep1 (stripNames df)))
  have hmem : ∀ (n : String) (cs : List Cell),
      (n, cs) ∈ (harmoniseStep4 (harmoniseStep3 (harmoniseStep2 (harmoniseStep1
        (stripNames df))))).cols →
      cs.any (fun x => ¬ x = Cell.na) = true →
      n ∈ (harmonise_columns df).names := by
    intro n cs hpair hany
    unfold harmonise_columns
    rw [mem_names_dedupCols_iff]
    exact mem_names_dropAllNA_of hpair hany
  refine ⟨?_, ?_, ?_, ?_, ?_, nodup_names_harmonise df, harmonise_cols_any df⟩
  · refine hmem _ _ (pair_keep_step4 hET (by decide) (by decide)) ?_
    rw [hnr2]
    exact range_map_num_any hpos
  · refine hmem _ _ (pair_keep_step4 hPT (by decide) (by decide)) ?_
    rw [hnr2]
    exact range_map_num_any hpos
  · refine hmem _ _ (pair_keep_step4 hSAT (by decide) (by decide)) ?_
    rw [hnr2]
    exact range_map_num_any hpos
  · refine hmem _ _ (pair_keep_step4 hTI (by decide) (by decide)) ?_
    rw [hnr2]
    exact range_map_num_any hpos
  · set d3 := harmoniseStep3 (harmoniseStep2 (harmoniseStep1 (stripNames df))) with hd3
    have hnr3 : d3.nrows = df.nrows := by rw [hd3, nrows_step3, hnr2]
    by_cases hrel : "Related_Project_ID" ∈ d3.names
    · refine hmem "Is_MultiPhase"
        ((List.range d3.nrows).map
          (fun i => Cell.bool (¬ d3.getCell "Related_Project_ID" i = Cell.na))) ?_ ?_
      · rw [harmoniseStep4_of_mem hrel]
        exact DataFrame.setCol_mem_pair _ _ _
      · rw [hnr3]
        exact range_map_bool_any hpos
    · refine hmem "Is_MultiPhase"
        ((List.range d3.nrows).map (fun _ => Cell.bool false)) ?_ ?_
      · rw [harmoniseStep4_of_not_mem hrel]
        exact DataFrame.setCol_mem_pair _ _ _
      · rw [hnr3]
        exact range_map_bool_any hpos

/-- Witness for C9 at a concrete frame. -/
theorem C9_invariants_witness :
    "Exemption_Total" ∈ (harmonise_columns dfC9w).names
    ∧ "PILOT_Total" ∈ (harmonise_columns dfC9w).names
    ∧ "State_Award_Total" ∈ (harmonise_columns dfC9w).names
    ∧ "Total_Incentive" ∈ (harmonise_columns dfC9w).names
    ∧ "Is_MultiPhase" ∈ (harmonise_columns dfC9w).names
    ∧ (harmonise_columns dfC9w).names.Nodup
    ∧ ∀ c ∈ (harmonise_columns dfC9w).cols,
        c.2.any (fun x => ¬ x = Cell.na) = true :=
  C9_invariants dfC9w (by decide)

theorem headerMap_canons_not_derived2 : ∀ p ∈ HEADER_MAP, ¬ p.1 = "Exemption_Total"
    ∧ ¬ p.1 = "PILOT_Total" ∧ ¬ p.1 = "State_Award_Total" ∧ ¬ p.1 = "Total_Incentive"
    ∧ ¬ p.1 = "Is_MultiPhase" := by decide

set_option maxRecDepth 4000 in
/-- C6 counterexample: the input holds a non-null `Municipality` column
(the canonical name itself), yet the harmonised output has no
`Municipality` column: the self-variant entry makes the pass fill the
column with itself and then drop it. -/
theorem C6_counterexample :
    colHasData (stripNames dfC6x) "Municipality" = true
    ∧ "Municipality" ∉ (harmonise_columns dfC6x).names := by decide

/-- C6 (amended): after `harmonise_columns` no variant label of the alias
table remains as a column name unless it is itself the canonical label of
its field; and for every canonical field that is not listed among its own
variants (all fields except `Industry`, `Municipality` and `County`), if
the canonical name or any variant occurred in the stripped input with at
least one non-null cell, the canonical column is present in the output. -/
theorem C6_alias_table (df : DataFrame) (hnd : (stripNames df).names.Nodup)
    (hwf : df.WF) :
    (∀ p ∈ HEADER_MAP, ∀ v ∈ p.2, v ∈ (harmonise_columns df).names → v = p.1)
    ∧ (∀ p ∈ HEADER_MAP, p.1 ∉ p.2 →
        (colHasData (stripNames df) p.1 = true
          ∨ ∃ v ∈ p.2, colHasData (stripNames df) v = true) →
        p.1 ∈ (harmonise_columns df).names) := by
  constructor
  · intro p hp v hv hmem
    by_cases hvm : v = "Municipality"
    · have hpeq := headerMap_variants_unique p hp
        ("Municipality", ["City/Town", "Municipality", "Project City", "Recipient City"])
        (by decide) v hv (by rw [hvm]; decide)
      rw [hpeq]
      exact hvm
    · by_cases hvc : v = "County"
      · have hpeq := headerMap_variants_unique p hp
          ("County", ["County", "Project County", "Recipient County"])
          (by decide) v hv (by rw [hvc]; decide)
        rw [hpeq]
        exact hvc
      · exact absurd hmem (harmonise_variant_absent df p hp v hv hvm hvc)
  · intro p hp hself hdata
    obtain ⟨g1, g2, g3, g4, g5⟩ := headerMap_canons_not_derived2 p hp
    have hvc : ∀ v ∈ p.2, ¬ v = p.1 := fun v hv hveq => hself (hveq ▸ hv)
    have hd1 : colHasData (harmoniseStep1 (stripNames df)) p.1 = true := by
      apply colHasData_mapFold_canon HEADER_MAP (by
          show (p.1, p.2) ∈ HEADER_MAP
          exact hp)
        (WF_stripNames hwf) (headerMap_variants_nodup p hp) hvc
        headerMap_canon_in_variants headerMap_canons_nodup headerMap_variants_unique hdata
    have hmem1 : p.1 ∈ (harmoniseStep1 (stripNames df)).names := colHasData_mem hd1
    have hmem2 : p.1 ∈ (harmoniseStep2 (harmoniseStep1 (stripNames df))).names :=
      mem_names_ensureCols_of money_cols money_cols_nodup hmem1
    have hmem3 := mem_names_step3_of hmem2
    have hmem4 := mem_names_step4_of hmem3
    have hc2 : (harmoniseStep2 (harmoniseStep1 (stripNames df))).getColD p.1
        = (harmoniseStep1 (stripNames df)).getColD p.1 :=
      getColD_ensureCols_of_mem money_cols hmem1
    have hc3 : (harmoniseStep3 (harmoniseStep2 (harmoniseStep1 (stripNames df)))).getColD p.1
        = (harmoniseStep1 (stripNames df)).getColD p.1 := by
      rw [getColD_step3_other g1 g2 g3 g4, hc2]
    have hc4 : (harmoniseStep4 (harmoniseStep3 (harmoniseStep2 (harmoniseStep1
        (stripNames df))))).getColD p.1
        = (harmoniseStep1 (stripNames df)).getColD p.1 := by
      by_cases hrel : p.1 = "Related_Project_ID"
      · rw [hrel] at hmem3 ⊢
        rw [getColD_step4_Rel_of_mem hmem3]
        rw [← hrel] at hmem3 ⊢
        exact hc3
      · rw [getColD_step4_other hrel g5, hc3]
    have hnd4 : (harmoniseStep4 (harmoniseStep3 (harmoniseStep2 (harmoniseStep1
        (stripNames df))))).names.Nodup :=
      nodup_names_step4 (nodup_names_step3
        (nodup_names_ensureCols _ _ money_cols_nodup (nodup_names_mapFold HEADER_MAP hnd)))
    unfold harmonise_columns
    rw [mem_names_dedupCols_iff]
    apply (mem_names_dropAllNA_iff hnd4 p.1).mpr
    refine ⟨hmem4, ?_⟩
    rw [hc4]
    exact hd1

/-- Witness for C6 at a concrete frame. -/
theorem C6_alias_table_witness :
    (∀ p ∈ HEADER_MAP, ∀ v ∈ p.2, v ∈ (harmonise_columns dfC6w).names → v = p.1)
    ∧ (∀ p ∈ HEADER_MAP, p.1 ∉ p.2 →
        (colHasData (stripNames dfC6w) p.1 = true
          ∨ ∃ v ∈ p.2, colHasData (stripNames dfC6w) v = true) →
        p.1 ∈ (harmonise_columns dfC6w).names) :=
  C6_alias_table dfC6w (by decide) (by decide)

/-!
Lemmas: Lemmas towards idempotence of the pass
-/

theorem replicate_na_any_false (k : Nat) :
    (List.replicate k Cell.na).any (fun x => ¬ x = Cell.na) = false := by
  rw [List.any_eq_false]
  intro x hx
  rw [List.eq_of_mem_replicate hx]
  simp

theorem WF_dropAllNA {df : DataFrame} (h : df.WF) : (dropAllNA df).WF := by
  intro c hc
  exact h c (List.mem_of_mem_filter hc)

theorem WF_dedupCols {df : DataFrame} (h : df.WF) : (dedupCols df).WF := by
  intro c hc
  exact h c (cols_dedupCols_mem hc)

theorem WF_harmonise {df : DataFrame} (h : df.WF) : (harmonise_columns df).WF :=
  WF_dedupCols (WF_dropAllNA (WF_step4 (WF_step3 (WF_ensureCols money_cols
    (WF_mapFold HEADER_MAP (WF_stripNames h))))))

theorem harmonise_zero_rows {df : DataFrame} (hwf : df.WF) (hz : df.nrows = 0) :
    harmonise_columns df = ⟨0, []⟩ := by
  have hnr : (harmonise_columns df).nrows = 0 := by rw [nrows_harmonise, hz]
  have hwfo := WF_harmonise hwf
  have hcols : (harmonise_columns df).cols = [] := by
    cases hcc : (harmonise_columns df).cols with
    | nil => rfl
    | cons c rest =>
      exfalso
      have hmem : c ∈ (harmonise_columns df).cols := by rw [hcc]; exact List.mem_cons_self c rest
      have hlen := hwfo c hmem
      rw [hnr, List.length_eq_zero] at hlen
      have hany := harmonise_cols_any df c hmem
      rw [hlen] at hany
      simp at hany
  cases hdf : harmonise_columns df with
  | mk a b =>
    rw [hdf] at hnr hcols
    simp at hnr hcols
    rw [hnr, hcols]

theorem harmonise_variant_free (df : DataFrame)
    (hM : "Municipality" ∉ (harmonise_columns df).names)
    (hC : "County" ∉ (harmonise_columns df).names) :
    ∀ p ∈ HEADER_MAP, ∀ v ∈ p.2, v ∉ (harmonise_columns df).names := by
  intro p hp v hv
  by_cases hvm : v = "Municipality"
  · rw [hvm]; exact hM
  · by_cases hvc : v = "County"
    · rw [hvc]; exact hC
    · exact harmonise_variant_absent df p hp v hv hvm hvc

theorem getColD_harmonise_IMP (df : DataFrame) (hnd : (stripNames df).names.Nodup)
    (hpos : 1 ≤ df.nrows) :
    (harmonise_columns df).getColD "Is_MultiPhase"
      = (List.range df.nrows).map
          (fun i => Cell.bool
            (¬ (harmoniseStep3 (harmoniseStep2 (harmoniseStep1
              (stripNames df)))).getCell "Related_Project_ID" i = Cell.na)) := by
  have hnd3 : (harmoniseStep3 (harmoniseStep2 (harmoniseStep1
      (stripNames df)))).names.Nodup :=
    nodup_names_step3
      (nodup_names_ensureCols _ _ money_cols_nodup (nodup_names_mapFold HEADER_MAP hnd))
  have hnd4 : (harmoniseStep4 (harmoniseStep3 (harmoniseStep2 (harmoniseStep1
      (stripNames df))))).names.Nodup := nodup_names_step4 hnd3
  have hnr3 : (harmoniseStep3 (harmoniseStep2 (harmoniseStep1 (stripNames df)))).nrows
      = df.nrows := by
    rw [nrows_step3, nrows_step2, nrows_step1, nrows_stripNames]
  have hc4 : (harmoniseStep4 (harmoniseStep3 (harmoniseStep2 (harmoniseStep1
      (stripNames df))))).getColD "Is_MultiPhase"
      = (List.range df.nrows).map
          (fun i => Cell.bool
            (¬ (harmoniseStep3 (harmoniseStep2 (harmoniseStep1
              (stripNames df)))).getCell "Related_Project_ID" i = Cell.na)) := by
    rw [getColD_step4_IMP, hnr3]
  unfold harmonise_columns
  rw [getColD_dedupCols _ (nodup_names_dropAllNA _ hnd4), getColD_dropAllNA hnd4, hc4,
    if_pos (range_map_bool_any hpos)]

theorem harmonise_money_dropped (df : DataFrame) (hnd : (stripNames df).names.Nodup)
    {m : String} (hm : m ∈ money_cols)
    (hout : m ∉ (harmonise_columns df).names) :
    ((harmoniseStep2 (harmoniseStep1 (stripNames df))).getColD m).any
      (fun x => ¬ x = Cell.na) = false := by
  obtain ⟨f1, f2, f3, f4, f5, f6⟩ := money_not_derived_eq m hm
  have hmem2 : m ∈ (harmoniseStep2 (harmoniseStep1 (stripNames df))).names :=
    mem_names_ensureCols_listed money_cols_nodup hm
  have hmem4 : m ∈ (harmoniseStep4 (harmoniseStep3 (harmoniseStep2 (harmoniseStep1
      (stripNames df))))).names := mem_names_step4_of (mem_names_step3_of hmem2)
  have hnd4 : (harmoniseStep4 (harmoniseStep3 (harmoniseStep2 (harmoniseStep1
      (stripNames df))))).names.Nodup :=
    nodup_names_step4 (nodup_names_step3
      (nodup_names_ensureCols _ _ money_cols_nodup (nodup_names_mapFold HEADER_MAP hnd)))
  unfold harmonise_columns at hout
  rw [mem_names_dedupCols_iff] at hout
  by_contra hany
  rw [Bool.not_eq_false] at hany
  apply hout
  apply (mem_names_dropAllNA_iff hnd4 m).mpr
  refine ⟨hmem4, ?_⟩
  rw [getColD_step4_other f5 f6, getColD_step3_other f1 f2 f3 f4]
  exact hany

theorem harmonise_Rel_of_mem (df : DataFrame) (hnd : (stripNames df).names.Nodup)
    (hrel : "Related_Project_ID" ∈ (harmonise_columns df).names) :
    (harmonise_columns df).getColD "Related_Project_ID"
      = (harmoniseStep3 (harmoniseStep2 (harmoniseStep1
          (stripNames df)))).getColD "Related_Project_ID" := by
  have hnd3 : (harmoniseStep3 (harmoniseStep2 (harmoniseStep1
      (stripNames df)))).names.Nodup :=
    nodup_names_step3
      (nodup_names_ensureCols _ _ money_cols_nodup (nodup_names_mapFold HEADER_MAP hnd))
  have hnd4 : (harmoniseStep4 (harmoniseStep3 (harmoniseStep2 (harmoniseStep1
      (stripNames df))))).names.Nodup := nodup_names_step4 hnd3
  unfold harmonise_columns at hrel ⊢
  rw [mem_names_dedupCols_iff] at hrel
  obtain ⟨hmem4, hany⟩ := (mem_names_dropAllNA_iff hnd4 _).mp hrel
  rw [getColD_dedupCols _ (nodup_names_dropAllNA _ hnd4), getColD_dropAllNA hnd4]
  by_cases hmem3 : "Related_Project_ID" ∈ (harmoniseStep3 (harmoniseStep2 (harmoniseStep1
      (stripNames df)))).names
  · rw [getColD_step4_Rel_of_mem hmem3] at hany ⊢
    rw [if_pos hany]
  · rw [getColD_step4_Rel_of_not_mem hmem3, replicate_na_any_false] at hany
    simp at hany

theorem harmonise_Rel_not_mem_all_na (df : DataFrame) (hnd : (stripNames df).names.Nodup)
    (hrelno : "Related_Project_ID" ∉ (harmonise_columns df).names) (i : Nat) :
    (harmoniseStep3 (harmoniseStep2 (harmoniseStep1
        (stripNames df)))).getCell "Related_Project_ID" i = Cell.na := by
  have hnd3 : (harmoniseStep3 (harmoniseStep2 (harmoniseStep1
      (stripNames df)))).names.Nodup :=
    nodup_names_step3
      (nodup_names_ensureCols _ _ money_cols_nodup (nodup_names_mapFold HEADER_MAP hnd))
  have hnd4 : (harmoniseStep4 (harmoniseStep3 (harmoniseStep2 (harmoniseStep1
      (stripNames df))))).names.Nodup := nodup_names_step4 hnd3
  unfold DataFrame.getCell
  by_cases hmem3 : "Related_Project_ID" ∈ (harmoniseStep3 (harmoniseStep2 (harmoniseStep1
      (stripNames df)))).names
  · unfold harmonise_columns at hrelno
    rw [mem_names_dedupCols_iff] at hrelno
    have hmem4 : "Related_Project_ID" ∈ (harmoniseStep4 (harmoniseStep3 (harmoniseStep2
        (harmoniseStep1 (stripNames df))))).names := by
      by_cases hmemd : "Related_Project_ID" ∈ (harmoniseStep3 (harmoniseStep2
          (harmoniseStep1 (stripNames df)))).names
      · rw [harmoniseStep4_of_mem hmemd]
        exact mem_names_setCol_of _ hmemd _
      · exact absurd hmem3 hmemd
    have hnoany : ¬ ((harmoniseStep4 (harmoniseStep3 (harmoniseStep2 (harmoniseStep1
        (stripNames df))))).getColD "Related_Project_ID").any (fun x => ¬ x = Cell.na)
          = true := by
      intro hany
      exact hrelno ((mem_names_dropAllNA_iff hnd4 _).mpr ⟨hmem4, hany⟩)
    rw [getColD_step4_Rel_of_mem hmem3] at hnoany
    exact getD_na_of_not_any (by simpa using hnoany) i
  · rw [getColD_eq_nil_of_not_mem hmem3]
    rfl

theorem cols_dropAllNA (df : DataFrame) : (dropAllNA df).cols
    = df.cols.filter (fun c => c.2.any (fun x => ¬ x = Cell.na)) := rfl

theorem dfExt {a b : DataFrame} (h1 : a.nrows = b.nrows) (h2 : a.cols = b.cols) :
    a = b := by
  cases a
  cases b
  simp only [DataFrame.mk.injEq]
  exact ⟨h1, h2⟩

theorem setCol_cols_of_not_mem {df : DataFrame} {n : String} (h : n ∉ df.names)
    (cells : List Cell) : (df.setCol n cells).cols = df.cols ++ [(n, cells)] := by
  unfold DataFrame.setCol
  rw [if_neg h]

theorem getCell_ensureCols {ms : List String} (hms : ms.Nodup) (o : DataFrame)
    (m : String) (i : Nat) : (ensureCols o ms).getCell m i = o.getCell m i := by
  by_cases hmo : m ∈ o.names
  · unfold DataFrame.getCell
    rw [getColD_ensureCols_of_mem ms hmo]
  · by_cases hmm : m ∈ ms
    · unfold DataFrame.getCell
      rw [getColD_ensureCols_new ms hmm hmo, getColD_eq_nil_of_not_mem hmo,
        replicate_getD_na]
      rfl
    · have hout : m ∉ (ensureCols o ms).names := by
        intro hmem
        rcases mem_names_ensureCols_sub hms hmem with h | h
        · exact hmo h
        · exact hmm h
      unfold DataFrame.getCell
      rw [getColD_eq_nil_of_not_mem hout, getColD_eq_nil_of_not_mem hmo]

theorem range_map_ne_nil {f : Nat → Cell} {n : Nat} (h : 1 ≤ n) :
    ¬ (List.range n).map f = [] := by
  intro hnil
  rw [List.map_eq_nil, List.range_eq_nil] at hnil
  omega

theorem ensure_app_filtered (o : DataFrame) :
    ((money_cols.filter (fun m => m ∉ o.names)).map
        (fun m => (m, List.replicate o.nrows Cell.na))).filter
      (fun c => c.2.any (fun x => ¬ x = Cell.na)) = [] := by
  rw [List.filter_eq_nil]
  intro c hc
  obtain ⟨m, _, hmc⟩ := List.mem_map.mp hc
  rw [← hmc]
  simp only [replicate_na_any_false]
  simp

set_option maxHeartbeats 1000000 in
theorem harmonise_fixed_point (o : DataFrame)
    (h1 : NamesStripped o) (h2 : o.names.Nodup)
    (h3 : ∀ c ∈ o.cols, c.2.any (fun x => ¬ x = Cell.na) = true)
    (h4 : ∀ p ∈ HEADER_MAP, ∀ v ∈ p.2, v ∉ o.names)
    (h5 : o.getColD "Exemption_Total"
      = (List.range o.nrows).map (fun i => Cell.num (exemptionRow o i)))
    (h6 : o.getColD "PILOT_Total"
      = (List.range o.nrows).map (fun i => Cell.num (pilotRow o i)))
    (h7 : o.getColD "State_Award_Total"
      = (List.range o.nrows).map (fun i => Cell.num (stateAwardRow o i)))
    (h8 : o.getColD "Total_Incentive"
      = (List.range o.nrows).map
          (fun i => Cell.num (exemptionRow o i + stateAwardRow o i - pilotRow o i)))
    (h9 : o.getColD "Is_MultiPhase"
      = (List.range o.nrows).map
          (fun i => Cell.bool (¬ o.getCell "Related_Project_ID" i = Cell.na)))
    (h10 : 1 ≤ o.nrows) :
    harmonise_columns o = o := by
  have hstrip : stripNames o = o := stripNames_id_of h1
  have hstep1 : harmoniseStep1 o = o := mapFold_id HEADER_MAP h4
  have hnd2 : (harmoniseStep2 o).names.Nodup :=
    nodup_names_ensureCols _ _ money_cols_nodup h2
  have hnr2 : (harmoniseStep2 o).nrows = o.nrows := nrows_ensureCols money_cols o
  have hcell2 : ∀ m i, (harmoniseStep2 o).getCell m i = o.getCell m i :=
    fun m i => getCell_ensureCols money_cols_nodup o m i
  have hgc : ∀ {n : String}, n ∈ o.names → (harmoniseStep2 o).getColD n = o.getColD n :=
    fun hn => getColD_ensureCols_of_mem money_cols hn
  have hexrow : ∀ i, exemptionRow (harmoniseStep2 o) i = exemptionRow o i := by
    intro i
    unfold exemptionRow
    rw [hcell2, hcell2, hcell2]
  have hpirow : ∀ i, pilotRow (harmoniseStep2 o) i = pilotRow o i := by
    intro i
    unfold pilotRow
    rw [hcell2, hcell2, hcell2]
  have hsarow : ∀ i, stateAwardRow (harmoniseStep2 o) i = stateAwardRow o i := by
    intro i
    unfold stateAwardRow
    rw [hcell2]
  have hET_mem : "Exemption_Total" ∈ o.names :=
    DataFrame.getColD_ne_nil_mem (by rw [h5]; exact range_map_ne_nil h10)
  have hPT_mem : "PILOT_Total" ∈ o.names :=
    DataFrame.getColD_ne_nil_mem (by rw [h6]; exact range_map_ne_nil h10)
  have hSAT_mem : "State_Award_Total" ∈ o.names :=
    DataFrame.getColD_ne_nil_mem (by rw [h7]; exact range_map_ne_nil h10)
  have hTI_mem : "Total_Incentive" ∈ o.names :=
    DataFrame.getColD_ne_nil_mem (by rw [h8]; exact range_map_ne_nil h10)
  have hIMP_mem : "Is_MultiPhase" ∈ o.names :=
    DataFrame.getColD_ne_nil_mem (by rw [h9]; exact range_map_ne_nil h10)
  have hET_id : (harmoniseStep2 o).setCol "Exemption_Total"
      ((List.range (harmoniseStep2 o).nrows).map
        (fun i => Cell.num (exemptionRow (harmoniseStep2 o) i))) = harmoniseStep2 o := by
    have hc : (List.range (harmoniseStep2 o).nrows).map
        (fun i => Cell.num (exemptionRow (harmoniseStep2 o) i))
        = (harmoniseStep2 o).getColD "Exemption_Total" := by
      rw [hnr2, hgc hET_mem, h5]
      exact List.map_congr_left (fun i _ => by rw [hexrow i])
    rw [hc]
    exact DataFrame.setCol_getColD_eq hnd2
      (mem_names_ensureCols_of money_cols money_cols_nodup hET_mem)
  have hPT_id : (harmoniseStep2 o).setCol "PILOT_Total"
      ((List.range (harmoniseStep2 o).nrows).map
        (fun i => Cell.num (pilotRow (harmoniseStep2 o) i))) = harmoniseStep2 o := by
    have hc : (List.range (harmoniseStep2 o).nrows).map
        (fun i => Cell.num (pilotRow (harmoniseStep2 o) i))
        = (harmoniseStep2 o).getColD "PILOT_Total" := by
      rw [hnr2, hgc hPT_mem, h6]
      exact List.map_congr_left (fun i _ => by rw [hpirow i])
    rw [hc]
    exact DataFrame.setCol_getColD_eq hnd2
      (mem_names_ensureCols_of money_cols money_cols_nodup hPT_mem)
  have hSAT_id : (harmoniseStep2 o).setCol "State_Award_Total"
      ((List.range (harmoniseStep2 o).nrows).map
        (fun i => Cell.num (stateAwardRow (harmoniseStep2 o) i))) = harmoniseStep2 o := by
    have hc : (List.range (harmoniseStep2 o).nrows).map
        (fun i => Cell.num (stateAwardRow (harmoniseStep2 o) i))
        = (harmoniseStep2 o).getColD "State_Award_Total" := by
      rw [hnr2, hgc hSAT_mem, h7]
      exact List.map_congr_left (fun i _ => by rw [hsarow i])
    rw [hc]
    exact DataFrame.setCol_getColD_eq hnd2
      (mem_names_ensureCols_of money_cols money_cols_nodup hSAT_mem)
  have hTI_id : (harmoniseStep2 o).setCol "Total_Incentive"
      ((List.range (harmoniseStep2 o).nrows).map
        (fun i => Cell.num (exemptionRow (harmoniseStep2 o) i
          + stateAwardRow (harmoniseStep2 o) i - pilotRow (harmoniseStep2 o) i)))
      = harmoniseStep2 o := by
    have hc : (List.range (harmoniseStep2 o).nrows).map
        (fun i => Cell.num (exemptionRow (harmoniseStep2 o) i
          + stateAwardRow (harmoniseStep2 o) i - pilotRow (harmoniseStep2 o) i))
        = (harmoniseStep2 o).getColD "Total_Incentive" := by
      rw [hnr2, hgc hTI_mem, h8]
      exact List.map_congr_left (fun i _ => by rw [hexrow i, hpirow i, hsarow i])
    rw [hc]
    exact DataFrame.setCol_getColD_eq hnd2
      (mem_names_ensureCols_of money_cols money_cols_nodup hTI_mem)
  have hstep3 : harmoniseStep3 (harmoniseStep2 o) = harmoniseStep2 o := by
    rw [harmoniseStep3_eq, hET_id, hPT_id, hSAT_id, hTI_id]
  have hcols2 : (harmoniseStep2 o).cols = o.cols
      ++ (money_cols.filter (fun m => m ∉ o.names)).map
          (fun m => (m, List.replicate o.nrows Cell.na)) :=
    cols_ensureCols money_cols o money_cols_nodup
  have hfil2 : (harmoniseStep2 o).cols.filter (fun c => c.2.any (fun x => ¬ x = Cell.na))
      = o.cols := by
    rw [hcols2, List.filter_append, List.filter_eq_self.mpr (h3), ensure_app_filtered,
      List.append_nil]
  have hdrop2 : dropAllNA (harmoniseStep2 o) = o := by
    apply dfExt
    · rw [nrows_dropAllNA, hnr2]
    · rw [cols_dropAllNA]
      exact hfil2
  by_cases hrel : "Related_Project_ID" ∈ o.names
  · have hrel2 : "Related_Project_ID" ∈ (harmoniseStep2 o).names :=
      mem_names_ensureCols_of money_cols money_cols_nodup hrel
    have hstep4 : harmoniseStep4 (harmoniseStep2 o) = harmoniseStep2 o := by
      rw [harmoniseStep4_of_mem hrel2]
      have hc : (List.range (harmoniseStep2 o).nrows).map
          (fun i => Cell.bool
            (¬ (harmoniseStep2 o).getCell "Related_Project_ID" i = Cell.na))
          = (harmoniseStep2 o).getColD "Is_MultiPhase" := by
        rw [hnr2, hgc hIMP_mem, h9]
        exact List.map_congr_left (fun i _ => by rw [hcell2])
      rw [hc]
      exact DataFrame.setCol_getColD_eq hnd2
        (mem_names_ensureCols_of money_cols money_cols_nodup hIMP_mem)
    show dedupCols (dropAllNA (harmoniseStep4 (harmoniseStep3 (harmoniseStep2
      (harmoniseStep1 (stripNames o)))))) = o
    rw [hstrip, hstep1, hstep3, hstep4, hdrop2, dedupCols_eq_self h2]
  · have hrelno2 : "Related_Project_ID" ∉ (harmoniseStep2 o).names := by
      intro hmem
      rcases mem_names_ensureCols_sub money_cols_nodup hmem with h | h
      · exact hrel h
      · exact absurd h (by decide)
    have hrelcell : ∀ i, o.getCell "Related_Project_ID" i = Cell.na := by
      intro i
      unfold DataFrame.getCell
      rw [DataFrame.getColD_eq_nil_of_not_mem hrel]
      rfl
    have hstep4 : harmoniseStep4 (harmoniseStep2 o)
        = (harmoniseStep2 o).setCol "Related_Project_ID"
            (List.replicate (harmoniseStep2 o).nrows Cell.na) := by
      rw [harmoniseStep4_of_not_mem hrelno2]
      have hIMP_mem2 : "Is_MultiPhase" ∈ ((harmoniseStep2 o).setCol "Related_Project_ID"
          (List.replicate (harmoniseStep2 o).nrows Cell.na)).names :=
        DataFrame.mem_names_setCol_of _
          (mem_names_ensureCols_of money_cols money_cols_nodup hIMP_mem) _
      have hc : (List.range (harmoniseStep2 o).nrows).map (fun _ => Cell.bool false)
          = ((harmoniseStep2 o).setCol "Related_Project_ID"
              (List.replicate (harmoniseStep2 o).nrows Cell.na)).getColD "Is_MultiPhase" := by
        rw [DataFrame.getColD_setCol_ne _ (by decide), hgc hIMP_mem, h9, hnr2]
        apply List.map_congr_left
        intro i _
        rw [hrelcell i]
        simp
      rw [hc]
      exact DataFrame.setCol_getColD_eq
        (DataFrame.nodup_names_setCol _ _ hnd2) hIMP_mem2
    have hfil4 : (((harmoniseStep2 o).setCol "Related_Project_ID"
          (List.replicate (harmoniseStep2 o).nrows Cell.na)).cols).filter
        (fun c => c.2.any (fun x => ¬ x = Cell.na)) = o.cols := by
      rw [setCol_cols_of_not_mem hrelno2, hcols2, List.append_assoc, List.filter_append,
        List.filter_eq_self.mpr (h3), List.filter_append, ensure_app_filtered]
      rw [List.filter_cons]
      rw [if_neg (by rw [hnr2, replicate_na_any_false]; simp)]
      rw [List.filter_nil, List.append_nil, List.append_nil]
    have hdrop4 : dropAllNA ((harmoniseStep2 o).setCol "Related_Project_ID"
        (List.replicate (harmoniseStep2 o).nrows Cell.na)) = o := by
      apply dfExt
      · rw [nrows_dropAllNA, nrows_setCol, hnr2]
      · rw [cols_dropAllNA]
        exact hfil4
    show dedupCols (dropAllNA (harmoniseStep4 (harmoniseStep3 (harmoniseStep2
      (harmoniseStep1 (stripNames o)))))) = o
    rw [hstrip, hstep1, hstep3, hstep4, hdrop4, dedupCols_eq_self h2]

set_option maxRecDepth 8000 in
set_option maxHeartbeats 2000000 in
/-- C2 counterexample: the pass is not idempotent.  An input whose only
column is `Project County` is renamed to `County` by the first
application; the second application then sees `County`, which is listed as
a variant of itself, and drops it. -/
theorem C2_counterexample :
    ¬ harmonise_columns (harmonise_columns dfC2x) = harmonise_columns dfC2x := by decide

set_option maxRecDepth 8000 in
/-- C2 (amended): `harmonise_columns` is idempotent on every well-formed
frame with distinct stripped column labels whose harmonised output
contains neither a `Municipality` nor a `County` column (the two canonical
labels that are listed among their own variants and can survive one
application only to be dropped by the next). -/
theorem C2_idempotent (df : DataFrame) (hwf : df.WF)
    (hnd : (stripNames df).names.Nodup)
    (hM : "Municipality" ∉ (harmonise_columns df).names)
    (hC : "County" ∉ (harmonise_columns df).names) :
    harmonise_columns (harmonise_columns df) = harmonise_columns df := by
  rcases Nat.eq_zero_or_pos df.nrows with hz | hpos
  · rw [harmonise_zero_rows hwf hz]
    decide
  · apply harmonise_fixed_point
    · exact namesStripped_harmonise df
    · exact nodup_names_harmonise df
    · exact harmonise_cols_any df
    · exact harmonise_variant_free df hM hC
    · rw [getColD_harmonise_ET df hnd hpos, nrows_harmonise]
      exact List.map_congr_left
        (fun i _ => congrArg Cell.num (exemptionRow_harmonise df hnd i).symm)
    · rw [getColD_harmonise_PT df hnd hpos, nrows_harmonise]
      exact List.map_congr_left
        (fun i _ => congrArg Cell.num (pilotRow_harmonise df hnd i).symm)
    · rw [getColD_harmonise_SAT df hnd hpos, nrows_harmonise]
      exact List.map_congr_left
        (fun i _ => congrArg Cell.num (stateAwardRow_harmonise df hnd i).symm)
    · rw [getColD_harmonise_TI df hnd hpos, nrows_harmonise]
      refine List.map_congr_left (fun i _ => ?_)
      rw [exemptionRow_harmonise df hnd i, pilotRow_harmonise df hnd i,
        stateAwardRow_harmonise df hnd i]
    · rw [getColD_harmonise_IMP df hnd hpos, nrows_harmonise]
      refine List.map_congr_left (fun i _ => ?_)
      by_cases hrel : "Related_Project_ID" ∈ (harmonise_columns df).names
      · have hg : (harmonise_columns df).getCell "Related_Project_ID" i
            = (harmoniseStep3 (harmoniseStep2 (harmoniseStep1
                (stripNames df)))).getCell "Related_Project_ID" i := by
          unfold DataFrame.getCell
          rw [harmonise_Rel_of_mem df hnd hrel]
        rw [hg]
      · have hg1 := harmonise_Rel_not_mem_all_na df hnd hrel i
        have hg2 : (harmonise_columns df).getCell "Related_Project_ID" i = Cell.na := by
          unfold DataFrame.getCell
          rw [DataFrame.getColD_eq_nil_of_not_mem hrel]
          rfl
        rw [hg1, hg2]
    · rw [nrows_harmonise]
      exact hpos

set_option maxRecDepth 8000 in
set_option maxHeartbeats 2000000 in
/-- Witness for C2 at a concrete frame. -/
theorem C2_idempotent_witness :
    harmonise_columns (harmonise_columns dfC2w) = harmonise_columns dfC2w :=
  C2_idempotent dfC2w (by decide) (by decide) (by decide) (by decide)
